import Mathlib

/-!
Verification development for the dual-run adaptive traffic-signal system.

The executable core (TrafficSignalController, EmergencyDetector,
DualRunCoordinator, MetricsAggregator — `rl_agent.py`,
`dual_simulation_manager.py`, `api/routes/simulation.py`) is not shipped in
this repository; only its design documents (EMERGENCY_PRIORITY_GUIDE.md,
EMERGENCY_SPAWN_FIX.md, the preemption overview) and the React frontend are.
The controller state machine, detector, coordinator and aggregator below are
therefore modelled from the specification and from the code snippets quoted
in those documents.  The frontend pages (LiveControl, DeepAnalytics,
ScenarioSelection) are embedded directly from their TypeScript sources.
-/

namespace TrafficSys

/-- Modelled from the spec: controller modes of the per-intersection
state machine (`NORMAL`, `YELLOW_TRANSITION`, `EMERGENCY_YELLOW`,
`EMERGENCY_GREEN`). -/
inductive Mode where
  | normal
  | yellowTransition
  | emergencyYellow
  | emergencyGreen
deriving DecidableEq, Repr

/-- Modelled from the spec: an `EmergencyEvent` created when a priority
vehicle is detected within the detection radius; carries the vehicle id,
the lane, the distance to the stop line and the phase required to grant
it right-of-way. -/
structure EmergencyEvent where
  vid : Nat
  lane : Nat
  distance : Nat
  requiredPhase : Nat
deriving DecidableEq, Repr

/-- One observed vehicle on an approach lane (from the lane observation
source): id, priority-class flag (`typeID = "emergency"`), lane, and
distance to the intersection stop line. -/
structure VehicleObs where
  vid : Nat
  isEmergency : Bool
  lane : Nat
  distance : Nat
deriving DecidableEq, Repr

/-- Per-step external input to one controller: the lane observations and
the desired phase returned by the attached DecisionPolicy (consumed as an
opaque observation → action mapping). -/
structure Input where
  vehicles : List VehicleObs
  desiredPhase : Nat
deriving DecidableEq, Repr

/-- Modelled from the spec: static configuration — detection radius
(default 100), emergency yellow duration (default 1), normal yellow
duration (default 4), decision interval, emergency-green hard timeout,
the static lane → phase map, the priority-vehicle spawn interval
(default 120) and the random seed of the run. -/
structure Config where
  detectionRange : Nat
  emergencyYellow : Nat
  normalYellow : Nat
  decisionInterval : Nat
  hardTimeout : Nat
  laneMap : List (Nat × Nat)
  emergencyInterval : Nat
  seed : Nat

/-- Default configuration taken from the documents: 100-unit radius,
1-step emergency yellow, 4-step normal yellow, 10-step decision interval,
spawn interval 120, seed 42 (the UI always passes seed 42). -/
def defaultConfig : Config :=
  { detectionRange := 100
    emergencyYellow := 1
    normalYellow := 4
    decisionInterval := 10
    hardTimeout := 60
    laneMap := [(0, 0), (1, 1), (2, 2), (3, 3)]
    emergencyInterval := 120
    seed := 42 }

/-- Modelled from the spec: the `TrafficSignalController` record — every
field explicitly initialized, no implicitly absent attribute. -/
structure Controller where
  currentPhase : Nat
  mode : Mode
  phaseTimer : Nat
  decisionIntervalTimer : Nat
  pendingPhase : Nat
  activeEmergencyVehicle : Option EmergencyEvent
  preemptionCount : Nat
  notifiedVehicles : List Nat
deriving DecidableEq, Repr

/-- Initial controller state: `NORMAL`, `currentPhase = 0`, all timers and
counters zero, no active emergency vehicle, empty notified set. -/
def initController : Controller :=
  { currentPhase := 0
    mode := .normal
    phaseTimer := 0
    decisionIntervalTimer := 0
    pendingPhase := 0
    activeEmergencyVehicle := none
    preemptionCount := 0
    notifiedVehicles := [] }

/-- Controller reset (from the fix document: reset clears the emergency
session state and the logged-vehicle set; `preemptionCount` is reset only
here). -/
def resetController (_c : Controller) : Controller := initController

/-- The priority vehicle with minimal distance to the stop line among the
observed vehicles, if any (the detector takes the minimum distance across
all lanes). -/
def minPriority (vs : List VehicleObs) : Option VehicleObs :=
  vs.foldl
    (fun acc v =>
      if v.isEmergency then
        match acc with
        | none => some v
        | some w => if v.distance < w.distance then some v else acc
      else acc)
    none

/-- Modelled from the spec (`_check_emergency`, rl_agent.py, quoted in
EMERGENCY_PRIORITY_GUIDE.md): detect the nearest priority vehicle; if it
is within the detection radius and its lane has a phase mapping, return
the emergency event; a missing mapping (`PhaseMappingError`) is recovered
as no detection. -/
def detect (cfg : Config) (inp : Input) : Option EmergencyEvent :=
  match minPriority inp.vehicles with
  | none => none
  | some v =>
      if v.distance ≤ cfg.detectionRange then
        match cfg.laneMap.lookup v.lane with
        | some p => some { vid := v.vid, lane := v.lane, distance := v.distance, requiredPhase := p }
        | none => none
      else none

/-- Whether vehicle `vid` is observed on any approach lane this step. -/
def vehiclePresent (inp : Input) (vid : Nat) : Bool :=
  inp.vehicles.any (fun v => v.vid == vid)

/-- Modelled from the `_logged_ambulances` snippet in
EMERGENCY_PRIORITY_GUIDE.md: the ids of priority vehicles in detection
range this step that have not been logged before; the tracking set is
consulted and extended vehicle by vehicle, so a vehicle id is collected
at most once even within a single scan. -/
def newlyDetected (cfg : Config) (inp : Input) (notified : List Nat) : List Nat :=
  inp.vehicles.foldl
    (fun acc v =>
      if v.isEmergency ∧ v.distance ≤ cfg.detectionRange ∧
          v.vid ∉ notified ∧ v.vid ∉ acc then
        acc ++ [v.vid]
      else acc)
    []

/-- The detection-scan side effect: record first-time detections in
`notifiedVehicles` (each recorded id has a detection event emitted to the
DecisionLog at the same step, see `runLog`). -/
def scanNotified (cfg : Config) (inp : Input) (c : Controller) : Controller :=
  { c with notifiedVehicles := c.notifiedVehicles ++ newlyDetected cfg inp c.notifiedVehicles }

/-- Start an emergency preemption session: `EMERGENCY_YELLOW`, phase timer
reset, active vehicle recorded. -/
def enterEmergencyYellow (ev : EmergencyEvent) (c : Controller) : Controller :=
  { c with mode := .emergencyYellow, phaseTimer := 0, activeEmergencyVehicle := some ev }

/-- One step of `EMERGENCY_YELLOW` (independent emergency timer, per the
fix document): increment the timer; once it reaches the emergency yellow
duration, switch `currentPhase` to the required phase and enter
`EMERGENCY_GREEN`. -/
def stepEmergencyYellow (cfg : Config) (c : Controller) : Controller :=
  let t := c.phaseTimer + 1
  if cfg.emergencyYellow ≤ t then
    match c.activeEmergencyVehicle with
    | some ev =>
        { c with currentPhase := ev.requiredPhase, mode := .emergencyGreen, phaseTimer := 0 }
    | none => { c with mode := .normal, phaseTimer := 0 }
  else { c with phaseTimer := t }

/-- One step of `EMERGENCY_GREEN`: hold until the tracked vehicle is no
longer observed (then return to `NORMAL`, clear the session and increment
`preemptionCount` once) or the hard timeout elapses (recovered
`EmergencyTimeoutError`: forced return to `NORMAL`, no increment). -/
def stepEmergencyGreen (cfg : Config) (inp : Input) (c : Controller) : Controller :=
  match c.activeEmergencyVehicle with
  | some ev =>
      if vehiclePresent inp ev.vid then
        if cfg.hardTimeout ≤ c.phaseTimer + 1 then
          { c with mode := .normal, activeEmergencyVehicle := none, phaseTimer := 0 }
        else { c with phaseTimer := c.phaseTimer + 1 }
      else
        { c with mode := .normal, activeEmergencyVehicle := none, phaseTimer := 0,
                 preemptionCount := c.preemptionCount + 1 }
  | none => { c with mode := .normal, phaseTimer := 0 }

/-- One step of `YELLOW_TRANSITION`: increment the phase timer; once it
reaches the normal yellow duration, commit the pending phase and return
to `NORMAL`. -/
def stepYellowTransition (cfg : Config) (c : Controller) : Controller :=
  let t := c.phaseTimer + 1
  if cfg.normalYellow ≤ t then
    { c with currentPhase := c.pendingPhase, mode := .normal, phaseTimer := 0 }
  else { c with phaseTimer := t }

/-- The normal-mode decision cadence: increment `decisionIntervalTimer`;
at the decision interval query the policy; an unchanged desired phase
only resets the cadence, a different one starts a `YELLOW_TRANSITION`. -/
def stepDecision (cfg : Config) (inp : Input) (c : Controller) : Controller :=
  let d := c.decisionIntervalTimer + 1
  if cfg.decisionInterval ≤ d then
    if inp.desiredPhase = c.currentPhase then
      { c with decisionIntervalTimer := 0 }
    else
      { c with mode := .yellowTransition, phaseTimer := 0,
               decisionIntervalTimer := 0, pendingPhase := inp.desiredPhase }
  else { c with decisionIntervalTimer := d }

/-- Emergency check for a controller not already in an emergency sequence
(`NORMAL` or `YELLOW_TRANSITION`): a detected event whose required phase
differs from the current phase starts a preemption session; an event
already honored by the current phase causes no transition; otherwise the
normal flow (yellow resolution or decision cadence) proceeds. -/
def stepNonEmergency (cfg : Config) (inp : Input) (c : Controller) : Controller :=
  match detect cfg inp with
  | some ev =>
      if ev.requiredPhase = c.currentPhase then c
      else enterEmergencyYellow ev c
  | none =>
      if c.mode = .yellowTransition then stepYellowTransition cfg c
      else stepDecision cfg inp c

/-- Dispatch on the controller mode: the emergency path runs first and is
a strictly higher-priority override; normal decisions are gated on
`mode = NORMAL`. -/
def stepCore (cfg : Config) (inp : Input) (c : Controller) : Controller :=
  match c.mode with
  | .emergencyYellow => stepEmergencyYellow cfg c
  | .emergencyGreen => stepEmergencyGreen cfg inp c
  | .normal => stepNonEmergency cfg inp c
  | .yellowTransition => stepNonEmergency cfg inp c

/-- Modelled from the spec: one full controller update per step — the
detection scan (with its at-most-once logging side effect) followed by
the mode state machine. -/
def stepController (cfg : Config) (inp : Input) (c : Controller) : Controller :=
  stepCore cfg inp (scanNotified cfg inp c)

/-- The controller trajectory of a run: state after `n` completed steps,
driven by the per-step input stream `inp`. -/
def ctrlRun (cfg : Config) (inp : Nat → Input) : Nat → Controller
  | 0 => initController
  | n + 1 => stepController cfg (inp n) (ctrlRun cfg inp n)

/-- The detection events emitted to the DecisionLog during the first `n`
steps of a run: pairs (step, vehicle id), one per first-time detection. -/
def runLog (cfg : Config) (inp : Nat → Input) : Nat → List (Nat × Nat)
  | 0 => []
  | n + 1 =>
      runLog cfg inp n ++
        (newlyDetected cfg (inp n) ((ctrlRun cfg inp n).notifiedVehicles)).map
          (fun vid => (n, vid))

/-! ## DualRunCoordinator -/

/-- Modelled from the spec: one `SimulationTwin` — its controllers, its
step counter and the log of priority vehicles injected into it (pairs of
spawn step and route assignment). -/
structure TwinState where
  controllers : List Controller
  stepCount : Nat
  spawned : List (Nat × Nat)
deriving DecidableEq, Repr

/-- Modelled from the spec: the `DualRunCoordinator` state — exactly two
twins (adaptive, baseline) and the shared step counter the spawn schedule
is measured against. -/
structure DualState where
  adaptive : TwinState
  baseline : TwinState
  sharedStep : Nat
deriving DecidableEq, Repr

/-- Fatal coordinator-level error: the step counts of the two twins diverged. -/
inductive CoordError where
  | stepDesync
deriving DecidableEq, Repr

/-- The spawn condition from EMERGENCY_SPAWN_FIX.md
(`if step >= self.emergency_interval and step % self.emergency_interval == 0`). -/
def shouldSpawn (interval step : Nat) : Bool :=
  interval ≤ step && step % interval == 0

/-- Modelled from the spec: the route assigned to the priority vehicle
spawned at `step`, a deterministic function of the run seed and the
shared step counter (both twins receive the same assignment). -/
def routeOf (seed step : Nat) : Nat := (seed + step) % 4

/-- Advance one twin by one step: update every controller from the
per-intersection input stream `obs` and bump the step count of the twin. -/
def twinStep (cfg : Config) (obs : Nat → Input) (t : TwinState) : TwinState :=
  { t with controllers := t.controllers.mapIdx (fun i c => stepController cfg (obs i) c)
           stepCount := t.stepCount + 1 }

/-- Inject the priority vehicle spawned at step `s` into a twin (the
`_spawn_emergency_vehicle` call recorded as a spawn-log entry). -/
def injectSpawn (cfg : Config) (s : Nat) (t : TwinState) : TwinState :=
  { t with spawned := t.spawned ++ [(s, routeOf cfg.seed s)] }

/-- Modelled from the spec: `DualRunCoordinator.step()` — advance both
twins by exactly one step (adaptive on `obsA`, baseline on `obsB`),
perform the synchronized spawn check against the shared step counter,
then verify both twins report the same step count; a mismatch raises the
fatal `StepDesyncError`. -/
def coordStep (cfg : Config) (obsA obsB : Nat → Input) (st : DualState) :
    Except CoordError DualState :=
  let s := st.sharedStep + 1
  let a := twinStep cfg obsA st.adaptive
  let b := twinStep cfg obsB st.baseline
  if a.stepCount = b.stepCount then
    if shouldSpawn cfg.emergencyInterval s then
      .ok { adaptive := injectSpawn cfg s a, baseline := injectSpawn cfg s b, sharedStep := s }
    else
      .ok { adaptive := a, baseline := b, sharedStep := s }
  else .error .stepDesync

/-- Fresh coordinator state for a scenario: both twins hold identical
initial controllers (one per intersection of the scenario), step counters
zero, nothing spawned. -/
def initDual (nIntersections : Nat) : DualState :=
  { adaptive := { controllers := List.replicate nIntersections initController,
                  stepCount := 0, spawned := [] }
    baseline := { controllers := List.replicate nIntersections initController,
                  stepCount := 0, spawned := [] }
    sharedStep := 0 }

/-- Continue a (possibly already failed) run for `n` more steps: a fatal
error short-circuits, so no later step is executed. -/
def runFrom (cfg : Config) (obsA obsB : Nat → Nat → Input)
    (x : Except CoordError DualState) : Nat → Except CoordError DualState
  | 0 => x
  | n + 1 => (runFrom cfg obsA obsB x n).bind (coordStep cfg (obsA n) (obsB n))

/-- A fresh run advanced `n` steps (`obsA`/`obsB`: per-step,
per-intersection observation streams of the two twins). -/
def runDual (cfg : Config) (nI : Nat) (obsA obsB : Nat → Nat → Input)
    (n : Nat) : Except CoordError DualState :=
  runFrom cfg obsA obsB (.ok (initDual nI)) n

/-- The expected spawn log after `n` completed steps: one entry per step
`s ≤ n` satisfying the spawn condition. -/
def spawnSchedule (cfg : Config) : Nat → List (Nat × Nat)
  | 0 => []
  | n + 1 =>
      spawnSchedule cfg n ++
        (if shouldSpawn cfg.emergencyInterval (n + 1) then
          [(n + 1, routeOf cfg.seed (n + 1))] else [])

/-! ## MetricsAggregator -/

/-- Per-step, per-twin metrics snapshot (waiting time, queue length,
throughput), with exact rational arithmetic standing for the numeric
values. -/
structure MetricsSnapshot where
  avgWaitingTime : ℚ
  avgQueueLength : ℚ
  throughput : ℚ
deriving DecidableEq, Repr

/-- The percentage deltas the coordinator derives from a pair of
snapshots. -/
structure ImprovementSnapshot where
  waitingTimeReduction : ℚ
  queueLengthReduction : ℚ
  throughputIncrease : ℚ
deriving DecidableEq, Repr

/-- Modelled from the spec: relative improvement
`(baseline - adaptive) / baseline * 100` for waiting time and queue
length, with a zero baseline yielding a defined improvement of 0 rather
than an error. -/
def relImprovement (baseline adaptive : ℚ) : ℚ :=
  if baseline = 0 then 0 else (baseline - adaptive) / baseline * 100

/-- Modelled from the spec: throughput increase
`(adaptive - baseline) / baseline * 100`, with a zero baseline yielding
0. -/
def relIncrease (baseline adaptive : ℚ) : ℚ :=
  if baseline = 0 then 0 else (adaptive - baseline) / baseline * 100

/-- Modelled from the spec: `MetricsAggregator.record` — derive the
improvement ratios of the adaptive twin over the baseline twin for one
step. -/
def recordMetrics (snapshotAdaptive snapshotBaseline : MetricsSnapshot) :
    ImprovementSnapshot :=
  { waitingTimeReduction :=
      relImprovement snapshotBaseline.avgWaitingTime snapshotAdaptive.avgWaitingTime
    queueLengthReduction :=
      relImprovement snapshotBaseline.avgQueueLength snapshotAdaptive.avgQueueLength
    throughputIncrease :=
      relIncrease snapshotBaseline.throughput snapshotAdaptive.throughput }

end TrafficSys

namespace Frontend

/-! ## Frontend embeddings (from the TypeScript sources in the repo) -/

/-- The request body posted by `handleStartSimulation` in
ScenarioSelection.tsx to `/api/simulation/initialize`. -/
structure InitRequest where
  scenario : String
  max_steps : Nat
  n_cars : Nat
  gui : Bool
  seed : Nat
deriving DecidableEq, Repr

/-- From ScenarioSelection.tsx: the initialize payload for a selected
scenario id — `{ scenario: targetId, max_steps: 5400, n_cars: 1000,
gui: true, seed: 42 }`. -/
def startSimulationPayload (targetId : String) : InitRequest :=
  { scenario := targetId, max_steps := 5400, n_cars := 1000, gui := true, seed := 42 }

/-- The `rl_metrics` / `fixed_metrics` objects of the LiveControl
`SimulationState`. -/
structure TwinMetrics where
  waiting_time : ℚ
  queue_length : ℚ
  throughput : ℚ
deriving DecidableEq, Repr

/-- One `AgentState` entry of `rl_details` (LiveControl.tsx). -/
structure AgentState where
  tls_id : String
  current_phase : Int
  queue_length : Int
  time_since_change : Int
  throughput : Option Int
  emergency : Option Bool
  lane_queues : Option (List (String × Int))
deriving DecidableEq, Repr

/-- The LiveControl `SimulationState` React state (second LiveControl
version, which also tracks `scenario_id` / `scenario_mode`). -/
structure SimulationState where
  step : Int
  isRunning : Bool
  rl_metrics : TwinMetrics
  fixed_metrics : TwinMetrics
  rl_details : Option (List AgentState)
  scenario_id : Option String
  scenario_mode : Option String
deriving DecidableEq, Repr

/-- A parsed WebSocket message: each `SimulationState` field is either
carried by the message (`some`) or absent from its JSON object
(`none`). -/
structure WsMessage where
  step : Option Int
  isRunning : Option Bool
  rl_metrics : Option TwinMetrics
  fixed_metrics : Option TwinMetrics
  rl_details : Option (Option (List AgentState))
  scenario_id : Option (Option String)
  scenario_mode : Option (Option String)
deriving DecidableEq, Repr

/-- From LiveControl.tsx `ws.onmessage`:
`setStatus(prev => ({ ...prev, ...data }))` — object-spread merge, where
a key present in the message overrides the previous value and an absent
key leaves it unchanged. -/
def mergeStatus (prev : SimulationState) (data : WsMessage) : SimulationState :=
  { step := data.step.getD prev.step
    isRunning := data.isRunning.getD prev.isRunning
    rl_metrics := data.rl_metrics.getD prev.rl_metrics
    fixed_metrics := data.fixed_metrics.getD prev.fixed_metrics
    rl_details := data.rl_details.getD prev.rl_details
    scenario_id := data.scenario_id.getD prev.scenario_id
    scenario_mode := data.scenario_mode.getD prev.scenario_mode }

/-- The fields of the `/api/simulation/comparison` response the
DeepAnalytics playback logic reads: the time-point series and the
optional `generated_at` server timestamp (milliseconds). -/
structure AnalyticsData where
  time_points : List ℚ
  generated_at : Option Int
deriving DecidableEq, Repr

/-- From the DeepAnalytics page (`startSimulation`): the initial playback
index.  `if (data.generated_at)` is JavaScript truthiness, so an absent
or zero timestamp keeps index 0; otherwise the index is
`Math.floor(elapsedMs / 500)`, clamped first below at 0 and then above
at `time_points.length - 1`. -/
def initialPlaybackIndex (now : Int) (data : AnalyticsData) : Int :=
  match data.generated_at with
  | none => 0
  | some g =>
      if g = 0 then 0
      else
        let elapsedMs := now - g
        let i0 := Int.fdiv elapsedMs 500
        let i1 := if i0 < 0 then 0 else i0
        if (data.time_points.length : Int) ≤ i1 then
          (data.time_points.length : Int) - 1
        else i1

end Frontend

namespace TrafficSys

/-! ## Basic facts about the controller step -/

@[simp] theorem scanNotified_mode (cfg : Config) (i : Input) (c : Controller) :
    (scanNotified cfg i c).mode = c.mode := rfl

@[simp] theorem scanNotified_currentPhase (cfg : Config) (i : Input) (c : Controller) :
    (scanNotified cfg i c).currentPhase = c.currentPhase := rfl

@[simp] theorem scanNotified_phaseTimer (cfg : Config) (i : Input) (c : Controller) :
    (scanNotified cfg i c).phaseTimer = c.phaseTimer := rfl

@[simp] theorem scanNotified_decisionIntervalTimer (cfg : Config) (i : Input) (c : Controller) :
    (scanNotified cfg i c).decisionIntervalTimer = c.decisionIntervalTimer := rfl

@[simp] theorem scanNotified_pendingPhase (cfg : Config) (i : Input) (c : Controller) :
    (scanNotified cfg i c).pendingPhase = c.pendingPhase := rfl

@[simp] theorem scanNotified_active (cfg : Config) (i : Input) (c : Controller) :
    (scanNotified cfg i c).activeEmergencyVehicle = c.activeEmergencyVehicle := rfl

@[simp] theorem scanNotified_preemptionCount (cfg : Config) (i : Input) (c : Controller) :
    (scanNotified cfg i c).preemptionCount = c.preemptionCount := rfl

end TrafficSys

namespace Frontend

/-- C10: every incoming WebSocket message is merged into the simulation
status by object spread — a field absent from the message keeps its
previous value, and a field carried by the message takes exactly the
carried value. -/
theorem ws_merge_frame (prev : SimulationState) (data : WsMessage) :
    (data.step = none → (mergeStatus prev data).step = prev.step) ∧
    (data.isRunning = none → (mergeStatus prev data).isRunning = prev.isRunning) ∧
    (data.rl_metrics = none → (mergeStatus prev data).rl_metrics = prev.rl_metrics) ∧
    (data.fixed_metrics = none → (mergeStatus prev data).fixed_metrics = prev.fixed_metrics) ∧
    (data.rl_details = none → (mergeStatus prev data).rl_details = prev.rl_details) ∧
    (data.scenario_id = none → (mergeStatus prev data).scenario_id = prev.scenario_id) ∧
    (data.scenario_mode = none → (mergeStatus prev data).scenario_mode = prev.scenario_mode) ∧
    (∀ v, data.step = some v → (mergeStatus prev data).step = v) ∧
    (∀ v, data.isRunning = some v → (mergeStatus prev data).isRunning = v) ∧
    (∀ v, data.rl_metrics = some v → (mergeStatus prev data).rl_metrics = v) ∧
    (∀ v, data.fixed_metrics = some v → (mergeStatus prev data).fixed_metrics = v) ∧
    (∀ v, data.rl_details = some v → (mergeStatus prev data).rl_details = v) ∧
    (∀ v, data.scenario_id = some v → (mergeStatus prev data).scenario_id = v) ∧
    (∀ v, data.scenario_mode = some v → (mergeStatus prev data).scenario_mode = v) := by
  refine ⟨?_, ?_, ?_, ?_, ?_, ?_, ?_, ?_, ?_, ?_, ?_, ?_, ?_, ?_⟩ <;>
    first
      | (intro h; simp [mergeStatus, h])
      | (intro v h; simp [mergeStatus, h])

/-- Witness for C10: a concrete message carrying only `step` and
`rl_metrics` leaves `rl_details`, `scenario_id` and the fixed metrics
untouched and sets `step` to the carried value. -/
theorem ws_merge_frame_witness :
    (mergeStatus
        { step := 3, isRunning := true,
          rl_metrics := ⟨1, 2, 3⟩, fixed_metrics := ⟨4, 5, 6⟩,
          rl_details := some [], scenario_id := some "grid", scenario_mode := none }
        { step := some 7, isRunning := none, rl_metrics := some ⟨9, 9, 9⟩,
          fixed_metrics := none, rl_details := none,
          scenario_id := none, scenario_mode := none }).rl_details = some [] ∧
    (mergeStatus
        { step := 3, isRunning := true,
          rl_metrics := ⟨1, 2, 3⟩, fixed_metrics := ⟨4, 5, 6⟩,
          rl_details := some [], scenario_id := some "grid", scenario_mode := none }
        { step := some 7, isRunning := none, rl_metrics := some ⟨9, 9, 9⟩,
          fixed_metrics := none, rl_details := none,
          scenario_id := none, scenario_mode := none }).scenario_id = some "grid" ∧
    (mergeStatus
        { step := 3, isRunning := true,
          rl_metrics := ⟨1, 2, 3⟩, fixed_metrics := ⟨4, 5, 6⟩,
          rl_details := some [], scenario_id := some "grid", scenario_mode := none }
        { step := some 7, isRunning := none, rl_metrics := some ⟨9, 9, 9⟩,
          fixed_metrics := none, rl_details := none,
          scenario_id := none, scenario_mode := none }).step = 7 := by
  refine ⟨?_, ?_, ?_⟩
  · exact (ws_merge_frame _ _).2.2.2.2.1 rfl
  · exact (ws_merge_frame _ _).2.2.2.2.2.1 rfl
  · exact (ws_merge_frame _ _).2.2.2.2.2.2.2.1 7 rfl

/-- C9 counterexample: for a response whose `generated_at` is set to the
timestamp 0, the page computes initial playback index 0 even though the
floor-and-clamp formula of the claim yields 2 (JavaScript truthiness
treats the 0 timestamp as absent). -/
theorem playback_index_cex :
    initialPlaybackIndex 1000 { time_points := [1, 2, 3], generated_at := some 0 } = 0 ∧
    max 0 (min (Int.fdiv (1000 - 0) 500) ((3 : Int) - 1)) = 2 := by
  constructor
  · rfl
  · decide

/-- C9 (amended): when `generated_at` is present and nonzero and the time
series is nonempty, the initial playback index is
`floor((now - generated_at) / 500)` clamped into
`[0, time_points.length - 1]`; when `generated_at` is absent — or zero,
which the page cannot distinguish from absent — the index is 0. -/
theorem playback_index_resume (now : Int) (data : AnalyticsData) :
    (data.generated_at = none → initialPlaybackIndex now data = 0) ∧
    (data.generated_at = some 0 → initialPlaybackIndex now data = 0) ∧
    (∀ g, data.generated_at = some g → g ≠ 0 → 1 ≤ data.time_points.length →
      initialPlaybackIndex now data =
        max 0 (min (Int.fdiv (now - g) 500) ((data.time_points.length : Int) - 1))) := by
  refine ⟨fun h => ?_, fun h => ?_, fun g hg hg0 hlen => ?_⟩
  · simp [initialPlaybackIndex, h]
  · simp [initialPlaybackIndex, h]
  · simp only [initialPlaybackIndex, hg]
    rw [if_neg hg0]
    set k := Int.fdiv (now - g) 500 with hk
    have hlen1 : (1 : Int) ≤ (data.time_points.length : Int) := by exact_mod_cast hlen
    split_ifs <;> omega

/-- Witness for C9: a consumer joining 4600 ms after generation resumes
at the clamped index 2 of a 3-point series, and a response without
`generated_at` starts at index 0. -/
theorem playback_index_resume_witness :
    initialPlaybackIndex 5000 { time_points := [1, 2, 3], generated_at := some 400 } =
      max 0 (min (Int.fdiv (5000 - 400) 500) ((([1, 2, 3] : List ℚ).length : Int) - 1)) ∧
    initialPlaybackIndex 5000 { time_points := [1, 2, 3], generated_at := none } = 0 := by
  constructor
  · exact (playback_index_resume 5000 _).2.2 400 rfl (by decide) (by decide)
  · exact (playback_index_resume 5000 _).1 rfl

end Frontend

namespace TrafficSys

/-- C7: `MetricsAggregator.record` derives the waiting-time and
queue-length improvements so that (for a nonzero baseline) the adaptive
value equals `baseline * (1 - improvement/100)` — i.e. the improvement is
`(baseline - adaptive)/baseline * 100` — and the throughput increase so
that the adaptive value equals `baseline * (1 + increase/100)`; any zero
baseline yields the defined value 0 instead of an error. -/
theorem record_improvements (snapshotAdaptive snapshotBaseline : MetricsSnapshot) :
    (snapshotBaseline.avgWaitingTime = 0 →
      (recordMetrics snapshotAdaptive snapshotBaseline).waitingTimeReduction = 0) ∧
    (snapshotBaseline.avgWaitingTime ≠ 0 →
      snapshotAdaptive.avgWaitingTime =
        snapshotBaseline.avgWaitingTime *
          (1 - (recordMetrics snapshotAdaptive snapshotBaseline).waitingTimeReduction / 100)) ∧
    (snapshotBaseline.avgQueueLength = 0 →
      (recordMetrics snapshotAdaptive snapshotBaseline).queueLengthReduction = 0) ∧
    (snapshotBaseline.avgQueueLength ≠ 0 →
      snapshotAdaptive.avgQueueLength =
        snapshotBaseline.avgQueueLength *
          (1 - (recordMetrics snapshotAdaptive snapshotBaseline).queueLengthReduction / 100)) ∧
    (snapshotBaseline.throughput = 0 →
      (recordMetrics snapshotAdaptive snapshotBaseline).throughputIncrease = 0) ∧
    (snapshotBaseline.throughput ≠ 0 →
      snapshotAdaptive.throughput =
        snapshotBaseline.throughput *
          (1 + (recordMetrics snapshotAdaptive snapshotBaseline).throughputIncrease / 100)) := by
  refine ⟨fun h => ?_, fun h => ?_, fun h => ?_, fun h => ?_, fun h => ?_, fun h => ?_⟩ <;>
    simp only [recordMetrics, relImprovement, relIncrease] <;>
    first
      | (rw [if_pos h])
      | (rw [if_neg h]; field_simp; ring)

/-! ## Coordinator runs -/

@[simp] theorem twinStep_stepCount (cfg : Config) (o : Nat → Input) (t : TwinState) :
    (twinStep cfg o t).stepCount = t.stepCount + 1 := rfl

@[simp] theorem twinStep_spawned (cfg : Config) (o : Nat → Input) (t : TwinState) :
    (twinStep cfg o t).spawned = t.spawned := rfl

/-- Characterization of a fresh run after `n` steps: it never fails, both
twins have stepped exactly `n` times, and both carry exactly the spawn
schedule. -/
theorem runDual_spec (cfg : Config) (nI : Nat) (oA oB : Nat → Nat → Input) :
    ∀ n, ∃ st, runDual cfg nI oA oB n = .ok st ∧
      st.adaptive.stepCount = n ∧ st.baseline.stepCount = n ∧ st.sharedStep = n ∧
      st.adaptive.spawned = spawnSchedule cfg n ∧
      st.baseline.spawned = spawnSchedule cfg n := by
  intro n
  induction n with
  | zero => exact ⟨initDual nI, rfl, rfl, rfl, rfl, rfl, rfl⟩
  | succ n ih =>
      obtain ⟨st, hrun, ha, hb, hs, hsa, hsb⟩ := ih
      have hstep : runDual cfg nI oA oB (n + 1)
          = (runDual cfg nI oA oB n).bind (coordStep cfg (oA n) (oB n)) := rfl
      rw [hstep, hrun]
      simp only [Except.bind]
      unfold coordStep
      rw [if_pos (by simp [ha, hb])]
      rw [hs]
      cases hsp : shouldSpawn cfg.emergencyInterval (n + 1) with
      | true =>
          simp only [hsp, if_true]
          refine ⟨_, rfl, ?_, ?_, rfl, ?_, ?_⟩ <;>
            simp [injectSpawn, ha, hb, hsa, hsb, spawnSchedule, hsp]
      | false =>
          simp only [hsp, Bool.false_eq_true, if_false]
          refine ⟨_, rfl, ?_, ?_, rfl, ?_, ?_⟩ <;>
            simp [ha, hb, hsa, hsb, spawnSchedule, hsp]

/-- C1: after every completed coordinator `step()` both twins report the
same step count; on any state where the counts differ, `step()` raises
the fatal `StepDesyncError`, and a failed run executes no later step. -/
theorem step_lockstep (cfg : Config) (nI : Nat) (oA oB : Nat → Nat → Input) :
    (∀ n st, runDual cfg nI oA oB n = .ok st →
       st.adaptive.stepCount = st.baseline.stepCount) ∧
    (∀ (o o2 : Nat → Input) (st : DualState),
       st.adaptive.stepCount ≠ st.baseline.stepCount →
       coordStep cfg o o2 st = .error .stepDesync) ∧
    (∀ (e : CoordError) (m : Nat), runFrom cfg oA oB (.error e) m = .error e) := by
  refine ⟨?_, ?_, ?_⟩
  · intro n st h
    obtain ⟨st2, hrun, ha, hb, -⟩ := runDual_spec cfg nI oA oB n
    rw [h] at hrun
    cases hrun
    exact ha.trans hb.symm
  · intro o o2 st h
    unfold coordStep
    rw [if_neg (by simpa using h)]
  · intro e m
    induction m with
    | zero => rfl
    | succ m ih =>
        have hstep : runFrom cfg oA oB (.error e) (m + 1)
            = (runFrom cfg oA oB (.error e) m).bind (coordStep cfg (oA m) (oB m)) := rfl
        rw [hstep, ih]
        rfl

/-- The trivial observation stream used by the concrete run witnesses. -/
def obsZero : Nat → Nat → Input := fun _ _ => { vehicles := [], desiredPhase := 0 }

/-- Witness for C1: a concrete 3-step run ends with both step counts
equal to 3; a concrete desynced state (5 vs 3) makes `step()` fail with
`StepDesyncError`; a failed run stays failed over 4 further steps. -/
theorem step_lockstep_witness :
    (⟨⟨[], 3, []⟩, ⟨[], 3, []⟩, 3⟩ : DualState).adaptive.stepCount =
      (⟨⟨[], 3, []⟩, ⟨[], 3, []⟩, 3⟩ : DualState).baseline.stepCount ∧
    coordStep defaultConfig (obsZero 0) (obsZero 0)
      ⟨⟨[], 5, []⟩, ⟨[], 3, []⟩, 0⟩ = .error .stepDesync ∧
    runFrom defaultConfig obsZero obsZero (.error .stepDesync) 4 = .error .stepDesync := by
  refine ⟨?_, ?_, ?_⟩
  · exact (step_lockstep defaultConfig 0 obsZero obsZero).1 3
      ⟨⟨[], 3, []⟩, ⟨[], 3, []⟩, 3⟩ rfl
  · exact (step_lockstep defaultConfig 0 obsZero obsZero).2.1 (obsZero 0) (obsZero 0)
      ⟨⟨[], 5, []⟩, ⟨[], 3, []⟩, 0⟩ (by decide)
  · exact (step_lockstep defaultConfig 0 obsZero obsZero).2.2 .stepDesync 4

/-- The spawn condition at interval 120 holds exactly at the positive
multiples of 120. -/
theorem shouldSpawn_iff_mul (s : Nat) :
    shouldSpawn 120 s = true ↔ ∃ k, 1 ≤ k ∧ s = 120 * k := by
  unfold shouldSpawn
  simp only [Bool.and_eq_true, decide_eq_true_eq, beq_iff_eq]
  constructor
  · rintro ⟨h1, h2⟩
    obtain ⟨k, hk⟩ := Nat.dvd_of_mod_eq_zero h2
    exact ⟨k, by omega, hk⟩
  · rintro ⟨k, hk1, rfl⟩
    exact ⟨by omega, Nat.mul_mod_right 120 k⟩

/-- Membership in the spawn schedule after `n` steps. -/
theorem mem_spawnSchedule (cfg : Config) :
    ∀ n s r, (s, r) ∈ spawnSchedule cfg n ↔
      (shouldSpawn cfg.emergencyInterval s = true ∧ 1 ≤ s ∧ s ≤ n ∧
        r = routeOf cfg.seed s) := by
  intro n
  induction n with
  | zero =>
      intro s r
      simp only [spawnSchedule, List.not_mem_nil, false_iff]
      rintro ⟨-, h1, h0, -⟩
      omega
  | succ n ih =>
      intro s r
      simp only [spawnSchedule, List.mem_append]
      cases hsp : shouldSpawn cfg.emergencyInterval (n + 1) with
      | true =>
          simp only [hsp, if_true, List.mem_singleton, Prod.mk.injEq, ih]
          constructor
          · rintro (⟨h1, h2, h3, h4⟩ | ⟨rfl, rfl⟩)
            · exact ⟨h1, h2, by omega, h4⟩
            · exact ⟨hsp, by omega, by omega, rfl⟩
          · rintro ⟨h1, h2, h3, h4⟩
            rcases Nat.lt_or_ge s (n + 1) with hlt | hge
            · exact Or.inl ⟨h1, h2, by omega, h4⟩
            · exact Or.inr ⟨by omega, by rw [h4]; congr 1; omega⟩
      | false =>
          simp only [hsp, Bool.false_eq_true, if_false, List.not_mem_nil, or_false, ih]
          constructor
          · rintro ⟨h1, h2, h3, h4⟩
            exact ⟨h1, h2, by omega, h4⟩
          · rintro ⟨h1, h2, h3, h4⟩
            refine ⟨h1, h2, ?_, h4⟩
            rcases Nat.lt_or_ge s (n + 1) with hlt | hge
            · omega
            · exfalso
              have hs1 : s = n + 1 := by omega
              rw [hs1] at h1
              rw [h1] at hsp
              exact Bool.noConfusion hsp

/-- C5: with `emergencyInterval = 120` and any fresh run, the spawned
priority vehicles of the adaptive twin are exactly one per step
`s = 120·k` (k ≥ 1) with `s ≤ n` — never at step 0 and never between
interval boundaries — the baseline twin receives the identical injection
list (same steps, same routes), and the spawn condition at interval 120
is equivalent to being a positive multiple of 120. -/
theorem spawn_steps_exact (cfg : Config) (nI : Nat) (oA oB : Nat → Nat → Input)
    (n : Nat) (st : DualState)
    (h120 : cfg.emergencyInterval = 120)
    (hrun : runDual cfg nI oA oB n = .ok st) :
    st.baseline.spawned = st.adaptive.spawned ∧
    (∀ s r, (s, r) ∈ st.adaptive.spawned ↔
       ((∃ k, 1 ≤ k ∧ s = 120 * k) ∧ s ≤ n ∧ r = routeOf cfg.seed s)) ∧
    shouldSpawn 120 0 = false ∧
    (∀ s, shouldSpawn 120 s = true ↔ ∃ k, 1 ≤ k ∧ s = 120 * k) := by
  obtain ⟨st2, hrun2, -, -, -, hsa, hsb⟩ := runDual_spec cfg nI oA oB n
  rw [hrun] at hrun2
  cases hrun2
  refine ⟨hsb.trans hsa.symm, ?_, by decide, shouldSpawn_iff_mul⟩
  intro s r
  rw [hsa, mem_spawnSchedule, h120, shouldSpawn_iff_mul]
  constructor
  · rintro ⟨h1, -, h3, h4⟩
    exact ⟨h1, h3, h4⟩
  · rintro ⟨⟨k, hk1, rfl⟩, h3, h4⟩
    exact ⟨⟨k, hk1, rfl⟩, by omega, h3, h4⟩

set_option maxRecDepth 20000 in
/-- Witness for C5: a concrete fresh 121-step run at interval 120 has
spawned exactly the vehicle of step 120 (route 2) in both twins, and
step 120 is in the spawn log with the schedule route. -/
theorem spawn_steps_exact_witness :
    (⟨⟨[], 121, [(120, 2)]⟩, ⟨[], 121, [(120, 2)]⟩, 121⟩ : DualState).baseline.spawned =
      (⟨⟨[], 121, [(120, 2)]⟩, ⟨[], 121, [(120, 2)]⟩, 121⟩ : DualState).adaptive.spawned ∧
    ((120, 2) ∈
        (⟨⟨[], 121, [(120, 2)]⟩, ⟨[], 121, [(120, 2)]⟩, 121⟩ : DualState).adaptive.spawned ↔
      ((∃ k, 1 ≤ k ∧ 120 = 120 * k) ∧ 120 ≤ 121 ∧ 2 = routeOf defaultConfig.seed 120)) ∧
    shouldSpawn 120 0 = false := by
  obtain ⟨h1, h2, h3, -⟩ :=
    spawn_steps_exact defaultConfig 0 obsZero obsZero 121
      ⟨⟨[], 121, [(120, 2)]⟩, ⟨[], 121, [(120, 2)]⟩, 121⟩ rfl rfl
  exact ⟨h1, h2 120 2, h3⟩

/-- C8: initialization and spawning are deterministic functions of the
scenario and the seed — the UI start request always carries seed 42, a
fresh run starts from the same initial state with identical controllers
in both twins, and any two runs of the same configuration produce the
identical spawn-step sequence regardless of their observation streams. -/
theorem run_determinism (cfg : Config) (nI : Nat) :
    (∀ targetId, (Frontend.startSimulationPayload targetId).seed = 42) ∧
    (∀ oA oB, runDual cfg nI oA oB 0 = .ok (initDual nI)) ∧
    (initDual nI).adaptive = (initDual nI).baseline ∧
    (∀ oA oB oA2 oB2 n st st2,
       runDual cfg nI oA oB n = .ok st →
       runDual cfg nI oA2 oB2 n = .ok st2 →
       st.adaptive.spawned = st2.adaptive.spawned ∧
       st.baseline.spawned = st2.baseline.spawned ∧
       st.sharedStep = st2.sharedStep) := by
  refine ⟨fun _ => rfl, fun _ _ => rfl, rfl, ?_⟩
  intro oA oB oA2 oB2 n st st2 h1 h2
  obtain ⟨u, hu, -, -, hus, hua, hub⟩ := runDual_spec cfg nI oA oB n
  obtain ⟨u2, hu2, -, -, hus2, hua2, hub2⟩ := runDual_spec cfg nI oA2 oB2 n
  rw [h1] at hu
  rw [h2] at hu2
  cases hu
  cases hu2
  exact ⟨hua.trans hua2.symm, hub.trans hub2.symm, hus.trans hus2.symm⟩

/-- A second observation stream (different policy outputs) for the C8
witness. -/
def obsOne : Nat → Nat → Input := fun _ _ => { vehicles := [], desiredPhase := 1 }

set_option maxRecDepth 20000 in
/-- Witness for C8: two concrete 121-step runs driven by different
observation streams spawn at the same steps with the same routes, and
the concrete start request carries seed 42. -/
theorem run_determinism_witness :
    (Frontend.startSimulationPayload "grid").seed = 42 ∧
    (⟨⟨[], 121, [(120, 2)]⟩, ⟨[], 121, [(120, 2)]⟩, 121⟩ : DualState).adaptive.spawned =
      (⟨⟨[], 121, [(120, 2)]⟩, ⟨[], 121, [(120, 2)]⟩, 121⟩ : DualState).adaptive.spawned ∧
    (initDual 2).adaptive = (initDual 2).baseline := by
  obtain ⟨hseed, -, -, hdet⟩ := run_determinism defaultConfig 0
  refine ⟨hseed "grid", ?_, (run_determinism defaultConfig 2).2.2.1⟩
  exact (hdet obsZero obsZero obsOne obsOne 121
    ⟨⟨[], 121, [(120, 2)]⟩, ⟨[], 121, [(120, 2)]⟩, 121⟩
    ⟨⟨[], 121, [(120, 2)]⟩, ⟨[], 121, [(120, 2)]⟩, 121⟩ rfl rfl).1

/-! ## Branch equations of the controller step -/

theorem stepCore_of_normal (cfg : Config) (i : Input) (c : Controller)
    (hm : c.mode = .normal) : stepCore cfg i c = stepNonEmergency cfg i c := by
  unfold stepCore
  rw [hm]

theorem stepCore_of_yt (cfg : Config) (i : Input) (c : Controller)
    (hm : c.mode = .yellowTransition) : stepCore cfg i c = stepNonEmergency cfg i c := by
  unfold stepCore
  rw [hm]

theorem stepCore_of_ey (cfg : Config) (i : Input) (c : Controller)
    (hm : c.mode = .emergencyYellow) : stepCore cfg i c = stepEmergencyYellow cfg c := by
  unfold stepCore
  rw [hm]

theorem stepCore_of_eg (cfg : Config) (i : Input) (c : Controller)
    (hm : c.mode = .emergencyGreen) : stepCore cfg i c = stepEmergencyGreen cfg i c := by
  unfold stepCore
  rw [hm]

theorem stepNonEmergency_honoring (cfg : Config) (i : Input) (c : Controller)
    (ev : EmergencyEvent) (hdet : detect cfg i = some ev)
    (heq : ev.requiredPhase = c.currentPhase) : stepNonEmergency cfg i c = c := by
  unfold stepNonEmergency
  rw [hdet]
  exact if_pos heq

theorem stepNonEmergency_preempt (cfg : Config) (i : Input) (c : Controller)
    (ev : EmergencyEvent) (hdet : detect cfg i = some ev)
    (hne : ev.requiredPhase ≠ c.currentPhase) :
    stepNonEmergency cfg i c = enterEmergencyYellow ev c := by
  unfold stepNonEmergency
  rw [hdet]
  exact if_neg hne

theorem stepNonEmergency_none_yt (cfg : Config) (i : Input) (c : Controller)
    (hdet : detect cfg i = none) (hm : c.mode = .yellowTransition) :
    stepNonEmergency cfg i c = stepYellowTransition cfg c := by
  unfold stepNonEmergency
  rw [hdet, if_pos hm]

theorem stepNonEmergency_none_normal (cfg : Config) (i : Input) (c : Controller)
    (hdet : detect cfg i = none) (hm : c.mode = .normal) :
    stepNonEmergency cfg i c = stepDecision cfg i c := by
  unfold stepNonEmergency
  rw [hdet, if_neg (by rw [hm]; intro h; cases h)]

theorem stepEmergencyYellow_fire (cfg : Config) (c : Controller) (ev : EmergencyEvent)
    (hfire : cfg.emergencyYellow ≤ c.phaseTimer + 1)
    (hae : c.activeEmergencyVehicle = some ev) :
    stepEmergencyYellow cfg c =
      { c with currentPhase := ev.requiredPhase, mode := .emergencyGreen, phaseTimer := 0 } := by
  unfold stepEmergencyYellow
  rw [if_pos hfire, hae]

theorem stepEmergencyYellow_fire_none (cfg : Config) (c : Controller)
    (hfire : cfg.emergencyYellow ≤ c.phaseTimer + 1)
    (hae : c.activeEmergencyVehicle = none) :
    stepEmergencyYellow cfg c = { c with mode := .normal, phaseTimer := 0 } := by
  unfold stepEmergencyYellow
  rw [if_pos hfire, hae]

theorem stepEmergencyYellow_wait (cfg : Config) (c : Controller)
    (hwait : ¬ cfg.emergencyYellow ≤ c.phaseTimer + 1) :
    stepEmergencyYellow cfg c = { c with phaseTimer := c.phaseTimer + 1 } := by
  unfold stepEmergencyYellow
  rw [if_neg hwait]

theorem stepYellowTransition_fire (cfg : Config) (c : Controller)
    (hfire : cfg.normalYellow ≤ c.phaseTimer + 1) :
    stepYellowTransition cfg c =
      { c with currentPhase := c.pendingPhase, mode := .normal, phaseTimer := 0 } := by
  unfold stepYellowTransition
  rw [if_pos hfire]

theorem stepYellowTransition_wait (cfg : Config) (c : Controller)
    (hwait : ¬ cfg.normalYellow ≤ c.phaseTimer + 1) :
    stepYellowTransition cfg c = { c with phaseTimer := c.phaseTimer + 1 } := by
  unfold stepYellowTransition
  rw [if_neg hwait]

theorem stepDecision_frame (cfg : Config) (i : Input) (c : Controller) :
    stepDecision cfg i c = { c with decisionIntervalTimer := c.decisionIntervalTimer + 1 } ∨
    stepDecision cfg i c = { c with decisionIntervalTimer := 0 } ∨
    stepDecision cfg i c =
      { c with mode := .yellowTransition, phaseTimer := 0,
               decisionIntervalTimer := 0, pendingPhase := i.desiredPhase } := by
  unfold stepDecision
  dsimp only
  split_ifs <;> simp

theorem stepEmergencyGreen_cases (cfg : Config) (i : Input) (c : Controller) :
    (∃ ev, c.activeEmergencyVehicle = some ev ∧ vehiclePresent i ev.vid = false ∧
      stepEmergencyGreen cfg i c =
        { c with mode := .normal, activeEmergencyVehicle := none, phaseTimer := 0,
                 preemptionCount := c.preemptionCount + 1 }) ∨
    (∃ ev, c.activeEmergencyVehicle = some ev ∧ vehiclePresent i ev.vid = true ∧
      (stepEmergencyGreen cfg i c =
          { c with mode := .normal, activeEmergencyVehicle := none, phaseTimer := 0 } ∨
        stepEmergencyGreen cfg i c = { c with phaseTimer := c.phaseTimer + 1 })) ∨
    (c.activeEmergencyVehicle = none ∧
      stepEmergencyGreen cfg i c = { c with mode := .normal, phaseTimer := 0 }) := by
  unfold stepEmergencyGreen
  cases hae : c.activeEmergencyVehicle with
  | none => exact Or.inr (Or.inr ⟨rfl, rfl⟩)
  | some ev =>
      cases hp : vehiclePresent i ev.vid with
      | false =>
          refine Or.inl ⟨ev, rfl, hp, ?_⟩
          simp [hp]
      | true =>
          refine Or.inr (Or.inl ⟨ev, rfl, hp, ?_⟩)
          dsimp only
          rw [hp]
          simp only [if_true]
          split_ifs <;> [exact Or.inl rfl; exact Or.inr rfl]

theorem stepController_eq (cfg : Config) (i : Input) (c : Controller) :
    stepController cfg i c = stepCore cfg i (scanNotified cfg i c) := rfl

/-- C3: a priority vehicle detected within range while the controller is
`NORMAL` with a different required phase makes the controller enter
`EMERGENCY_YELLOW` with the phase timer reset (and the vehicle recorded,
phase still unchanged) at the detection step; with the default 1-step
emergency yellow, the very next step switches `currentPhase` to the
required phase and enters `EMERGENCY_GREEN`; if the required phase
already equals the current phase, no transition occurs. -/
theorem emergency_preemption_step (cfg : Config) (inp inp2 : Input) (c : Controller)
    (ev : EmergencyEvent)
    (hd : cfg.emergencyYellow = 1)
    (hm : c.mode = .normal)
    (hdet : detect cfg inp = some ev) :
    (ev.requiredPhase ≠ c.currentPhase →
      (stepController cfg inp c).mode = .emergencyYellow ∧
      (stepController cfg inp c).phaseTimer = 0 ∧
      (stepController cfg inp c).currentPhase = c.currentPhase ∧
      (stepController cfg inp c).activeEmergencyVehicle = some ev ∧
      (stepController cfg inp2 (stepController cfg inp c)).currentPhase = ev.requiredPhase ∧
      (stepController cfg inp2 (stepController cfg inp c)).mode = .emergencyGreen) ∧
    (ev.requiredPhase = c.currentPhase →
      (stepController cfg inp c).mode = c.mode ∧
      (stepController cfg inp c).currentPhase = c.currentPhase ∧
      (stepController cfg inp c).phaseTimer = c.phaseTimer ∧
      (stepController cfg inp c).activeEmergencyVehicle = c.activeEmergencyVehicle) := by
  constructor
  · intro hne
    have key : stepController cfg inp c = enterEmergencyYellow ev (scanNotified cfg inp c) := by
      rw [stepController_eq,
        stepCore_of_normal cfg inp _ (by rw [scanNotified_mode]; exact hm),
        stepNonEmergency_preempt cfg inp _ ev hdet
          (by rw [scanNotified_currentPhase]; exact hne)]
    have key2 : stepController cfg inp2 (stepController cfg inp c) =
        { scanNotified cfg inp2 (stepController cfg inp c) with
          currentPhase := ev.requiredPhase, mode := .emergencyGreen, phaseTimer := 0 } := by
      rw [stepController_eq cfg inp2]
      rw [stepCore_of_ey cfg inp2 _ (by rw [scanNotified_mode, key]; rfl)]
      exact stepEmergencyYellow_fire cfg _ ev
        (by simp [key, enterEmergencyYellow, hd])
        (by rw [scanNotified_active, key]; rfl)
    refine ⟨by rw [key]; rfl, by rw [key]; rfl, by rw [key]; simp [enterEmergencyYellow],
      by rw [key]; rfl, by rw [key2], by rw [key2]⟩
  · intro heq
    have key : stepController cfg inp c = scanNotified cfg inp c := by
      rw [stepController_eq,
        stepCore_of_normal cfg inp _ (by rw [scanNotified_mode]; exact hm),
        stepNonEmergency_honoring cfg inp _ ev hdet
          (by rw [scanNotified_currentPhase]; exact heq)]
    rw [key]
    exact ⟨scanNotified_mode cfg inp c, scanNotified_currentPhase cfg inp c,
      scanNotified_phaseTimer cfg inp c, scanNotified_active cfg inp c⟩

/-- Witness for C3: an ambulance on lane 2 at distance 85 detected in a
fresh `NORMAL`/phase-0 controller triggers `EMERGENCY_YELLOW` with timer
0, and one step later phase 2 with `EMERGENCY_GREEN`; an ambulance whose
lane already maps to the current phase causes no transition. -/
theorem emergency_preemption_step_witness :
    (stepController defaultConfig ⟨[⟨1, true, 2, 85⟩], 0⟩ initController).mode =
      .emergencyYellow ∧
    (stepController defaultConfig ⟨[⟨1, true, 2, 85⟩], 0⟩ initController).phaseTimer = 0 ∧
    (stepController defaultConfig ⟨[], 0⟩
      (stepController defaultConfig ⟨[⟨1, true, 2, 85⟩], 0⟩ initController)).currentPhase =
        (⟨1, 2, 85, 2⟩ : EmergencyEvent).requiredPhase ∧
    (stepController defaultConfig ⟨[], 0⟩
      (stepController defaultConfig ⟨[⟨1, true, 2, 85⟩], 0⟩ initController)).mode =
        .emergencyGreen ∧
    (stepController defaultConfig ⟨[⟨3, true, 0, 90⟩], 0⟩ initController).mode =
      initController.mode := by
  obtain ⟨hpre, -⟩ :=
    emergency_preemption_step defaultConfig ⟨[⟨1, true, 2, 85⟩], 0⟩ ⟨[], 0⟩
      initController ⟨1, 2, 85, 2⟩ rfl rfl (by decide)
  obtain ⟨h1, h2, -, -, h5, h6⟩ := hpre (by decide)
  obtain ⟨-, hhon⟩ :=
    emergency_preemption_step defaultConfig ⟨[⟨3, true, 0, 90⟩], 0⟩ ⟨[], 0⟩
      initController ⟨3, 0, 90, 0⟩ rfl rfl (by decide)
  exact ⟨h1, h2, h5, h6, (hhon (by decide)).1⟩

/-! ## Yellow intervals guard every phase change -/

/-- `currentPhase` can change in a step only when the controller was in
one of the two yellow modes with its timer about to reach the configured
duration. -/
theorem stepCore_phase_change (cfg : Config) (i : Input) (c : Controller)
    (h : (stepCore cfg i c).currentPhase ≠ c.currentPhase) :
    (c.mode = .yellowTransition ∧ cfg.normalYellow ≤ c.phaseTimer + 1) ∨
    (c.mode = .emergencyYellow ∧ cfg.emergencyYellow ≤ c.phaseTimer + 1) := by
  cases hm : c.mode with
  | normal =>
      rw [stepCore_of_normal cfg i c hm] at h
      exfalso
      cases hdet : detect cfg i with
      | some ev =>
          by_cases heq : ev.requiredPhase = c.currentPhase
          · rw [stepNonEmergency_honoring cfg i c ev hdet heq] at h
            exact h rfl
          · rw [stepNonEmergency_preempt cfg i c ev hdet heq] at h
            exact h rfl
      | none =>
          rw [stepNonEmergency_none_normal cfg i c hdet hm] at h
          rcases stepDecision_frame cfg i c with he | he | he <;> rw [he] at h <;> exact h rfl
  | yellowTransition =>
      rw [stepCore_of_yt cfg i c hm] at h
      cases hdet : detect cfg i with
      | some ev =>
          exfalso
          by_cases heq : ev.requiredPhase = c.currentPhase
          · rw [stepNonEmergency_honoring cfg i c ev hdet heq] at h
            exact h rfl
          · rw [stepNonEmergency_preempt cfg i c ev hdet heq] at h
            exact h rfl
      | none =>
          rw [stepNonEmergency_none_yt cfg i c hdet hm] at h
          by_cases hfire : cfg.normalYellow ≤ c.phaseTimer + 1
          · exact Or.inl ⟨rfl, hfire⟩
          · rw [stepYellowTransition_wait cfg c hfire] at h
            exact absurd rfl h
  | emergencyYellow =>
      rw [stepCore_of_ey cfg i c hm] at h
      by_cases hfire : cfg.emergencyYellow ≤ c.phaseTimer + 1
      · exact Or.inr ⟨rfl, hfire⟩
      · rw [stepEmergencyYellow_wait cfg c hfire] at h
        exact absurd rfl h
  | emergencyGreen =>
      exfalso
      rw [stepCore_of_eg cfg i c hm] at h
      rcases stepEmergencyGreen_cases cfg i c with ⟨ev, -, -, he⟩ | ⟨ev, -, -, he | he⟩ | ⟨-, he⟩ <;>
        rw [he] at h <;> exact h rfl

theorem stepController_phase_change (cfg : Config) (i : Input) (c : Controller)
    (h : (stepController cfg i c).currentPhase ≠ c.currentPhase) :
    (c.mode = .yellowTransition ∧ cfg.normalYellow ≤ c.phaseTimer + 1) ∨
    (c.mode = .emergencyYellow ∧ cfg.emergencyYellow ≤ c.phaseTimer + 1) := by
  have h2 : (stepCore cfg i (scanNotified cfg i c)).currentPhase ≠
      (scanNotified cfg i c).currentPhase := h
  rcases stepCore_phase_change cfg i _ h2 with ⟨h1, h3⟩ | ⟨h1, h3⟩
  · exact Or.inl ⟨h1, h3⟩
  · exact Or.inr ⟨h1, h3⟩

/-- How a step can end in `YELLOW_TRANSITION`: the transition was just
entered (timer 0), or it was already running and the timer advanced while
strictly below the normal yellow duration, or an already-honored
emergency detection froze the controller for this step. -/
theorem stepCore_to_yt (cfg : Config) (i : Input) (c : Controller)
    (h : (stepCore cfg i c).mode = .yellowTransition) :
    (stepCore cfg i c).phaseTimer = 0 ∨
    (c.mode = .yellowTransition ∧
      ((c.phaseTimer + 2 ≤ cfg.normalYellow ∧
          (stepCore cfg i c).phaseTimer = c.phaseTimer + 1) ∨
        (stepCore cfg i c).phaseTimer = c.phaseTimer)) := by
  cases hm : c.mode with
  | normal =>
      rw [stepCore_of_normal cfg i c hm] at h ⊢
      cases hdet : detect cfg i with
      | some ev =>
          by_cases heq : ev.requiredPhase = c.currentPhase
          · rw [stepNonEmergency_honoring cfg i c ev hdet heq] at h
            have h2 : c.mode = .yellowTransition := h
            rw [hm] at h2
            exact Mode.noConfusion h2
          · rw [stepNonEmergency_preempt cfg i c ev hdet heq] at h
            exact Mode.noConfusion (show Mode.emergencyYellow = .yellowTransition from h)
      | none =>
          rw [stepNonEmergency_none_normal cfg i c hdet hm] at h ⊢
          rcases stepDecision_frame cfg i c with he | he | he <;> rw [he] at h ⊢
          · have h2 : c.mode = .yellowTransition := h
            rw [hm] at h2
            exact Mode.noConfusion h2
          · have h2 : c.mode = .yellowTransition := h
            rw [hm] at h2
            exact Mode.noConfusion h2
          · exact Or.inl rfl
  | yellowTransition =>
      rw [stepCore_of_yt cfg i c hm] at h ⊢
      cases hdet : detect cfg i with
      | some ev =>
          by_cases heq : ev.requiredPhase = c.currentPhase
          · rw [stepNonEmergency_honoring cfg i c ev hdet heq] at h ⊢
            exact Or.inr ⟨rfl, Or.inr rfl⟩
          · rw [stepNonEmergency_preempt cfg i c ev hdet heq] at h
            exact Mode.noConfusion (show Mode.emergencyYellow = .yellowTransition from h)
      | none =>
          rw [stepNonEmergency_none_yt cfg i c hdet hm] at h ⊢
          by_cases hfire : cfg.normalYellow ≤ c.phaseTimer + 1
          · rw [stepYellowTransition_fire cfg c hfire] at h
            exact Mode.noConfusion (show Mode.normal = .yellowTransition from h)
          · rw [stepYellowTransition_wait cfg c hfire] at h ⊢
            exact Or.inr ⟨rfl, Or.inl ⟨by omega, rfl⟩⟩
  | emergencyYellow =>
      rw [stepCore_of_ey cfg i c hm] at h
      exfalso
      by_cases hfire : cfg.emergencyYellow ≤ c.phaseTimer + 1
      · cases hae : c.activeEmergencyVehicle with
        | some ev =>
            rw [stepEmergencyYellow_fire cfg c ev hfire hae] at h
            exact Mode.noConfusion (show Mode.emergencyGreen = .yellowTransition from h)
        | none =>
            rw [stepEmergencyYellow_fire_none cfg c hfire hae] at h
            exact Mode.noConfusion (show Mode.normal = .yellowTransition from h)
      · rw [stepEmergencyYellow_wait cfg c hfire] at h
        have h2 : c.mode = .yellowTransition := h
        rw [hm] at h2
        exact Mode.noConfusion h2
  | emergencyGreen =>
      rw [stepCore_of_eg cfg i c hm] at h
      exfalso
      rcases stepEmergencyGreen_cases cfg i c with ⟨ev, -, -, he⟩ | ⟨ev, -, -, he | he⟩ | ⟨-, he⟩ <;>
          rw [he] at h
      · exact Mode.noConfusion (show Mode.normal = .yellowTransition from h)
      · exact Mode.noConfusion (show Mode.normal = .yellowTransition from h)
      · have h2 : c.mode = .yellowTransition := h
        rw [hm] at h2
        exact Mode.noConfusion h2
      · exact Mode.noConfusion (show Mode.normal = .yellowTransition from h)

/-- How a step can end in `EMERGENCY_YELLOW`: the session was just
entered (timer 0) or the emergency yellow was already running with the
timer strictly below the emergency duration. -/
theorem stepCore_to_ey (cfg : Config) (i : Input) (c : Controller)
    (h : (stepCore cfg i c).mode = .emergencyYellow) :
    (stepCore cfg i c).phaseTimer = 0 ∨
    (c.mode = .emergencyYellow ∧ c.phaseTimer + 2 ≤ cfg.emergencyYellow ∧
      (stepCore cfg i c).phaseTimer = c.phaseTimer + 1) := by
  cases hm : c.mode with
  | normal =>
      rw [stepCore_of_normal cfg i c hm] at h ⊢
      cases hdet : detect cfg i with
      | some ev =>
          by_cases heq : ev.requiredPhase = c.currentPhase
          · rw [stepNonEmergency_honoring cfg i c ev hdet heq] at h
            have h2 : c.mode = .emergencyYellow := h
            rw [hm] at h2
            exact Mode.noConfusion h2
          · rw [stepNonEmergency_preempt cfg i c ev hdet heq] at h ⊢
            exact Or.inl rfl
      | none =>
          rw [stepNonEmergency_none_normal cfg i c hdet hm] at h
          exfalso
          rcases stepDecision_frame cfg i c with he | he | he <;> rw [he] at h
          · have h2 : c.mode = .emergencyYellow := h
            rw [hm] at h2
            exact Mode.noConfusion h2
          · have h2 : c.mode = .emergencyYellow := h
            rw [hm] at h2
            exact Mode.noConfusion h2
          · exact Mode.noConfusion (show Mode.yellowTransition = .emergencyYellow from h)
  | yellowTransition =>
      rw [stepCore_of_yt cfg i c hm] at h ⊢
      cases hdet : detect cfg i with
      | some ev =>
          by_cases heq : ev.requiredPhase = c.currentPhase
          · rw [stepNonEmergency_honoring cfg i c ev hdet heq] at h
            have h2 : c.mode = .emergencyYellow := h
            rw [hm] at h2
            exact Mode.noConfusion h2
          · rw [stepNonEmergency_preempt cfg i c ev hdet heq] at h ⊢
            exact Or.inl rfl
      | none =>
          rw [stepNonEmergency_none_yt cfg i c hdet hm] at h
          exfalso
          by_cases hfire : cfg.normalYellow ≤ c.phaseTimer + 1
          · rw [stepYellowTransition_fire cfg c hfire] at h
            exact Mode.noConfusion (show Mode.normal = .emergencyYellow from h)
          · rw [stepYellowTransition_wait cfg c hfire] at h
            have h2 : c.mode = .emergencyYellow := h
            rw [hm] at h2
            exact Mode.noConfusion h2
  | emergencyYellow =>
      rw [stepCore_of_ey cfg i c hm] at h ⊢
      by_cases hfire : cfg.emergencyYellow ≤ c.phaseTimer + 1
      · exfalso
        cases hae : c.activeEmergencyVehicle with
        | some ev =>
            rw [stepEmergencyYellow_fire cfg c ev hfire hae] at h
            exact Mode.noConfusion (show Mode.emergencyGreen = .emergencyYellow from h)
        | none =>
            rw [stepEmergencyYellow_fire_none cfg c hfire hae] at h
            exact Mode.noConfusion (show Mode.normal = .emergencyYellow from h)
      · rw [stepEmergencyYellow_wait cfg c hfire] at h ⊢
        exact Or.inr ⟨rfl, by omega, rfl⟩
  | emergencyGreen =>
      rw [stepCore_of_eg cfg i c hm] at h
      exfalso
      rcases stepEmergencyGreen_cases cfg i c with ⟨ev, -, -, he⟩ | ⟨ev, -, -, he | he⟩ | ⟨-, he⟩ <;>
          rw [he] at h
      · exact Mode.noConfusion (show Mode.normal = .emergencyYellow from h)
      · exact Mode.noConfusion (show Mode.normal = .emergencyYellow from h)
      · have h2 : c.mode = .emergencyYellow := h
        rw [hm] at h2
        exact Mode.noConfusion h2
      · exact Mode.noConfusion (show Mode.normal = .emergencyYellow from h)

theorem stepController_to_yt (cfg : Config) (i : Input) (c : Controller)
    (h : (stepController cfg i c).mode = .yellowTransition) :
    (stepController cfg i c).phaseTimer = 0 ∨
    (c.mode = .yellowTransition ∧
      ((c.phaseTimer + 2 ≤ cfg.normalYellow ∧
          (stepController cfg i c).phaseTimer = c.phaseTimer + 1) ∨
        (stepController cfg i c).phaseTimer = c.phaseTimer)) := by
  rcases stepCore_to_yt cfg i (scanNotified cfg i c) h with h0 | ⟨h1, h2⟩
  · exact Or.inl h0
  · rw [scanNotified_mode] at h1
    simp only [scanNotified_phaseTimer] at h2
    exact Or.inr ⟨h1, h2⟩

theorem stepController_to_ey (cfg : Config) (i : Input) (c : Controller)
    (h : (stepController cfg i c).mode = .emergencyYellow) :
    (stepController cfg i c).phaseTimer = 0 ∨
    (c.mode = .emergencyYellow ∧ c.phaseTimer + 2 ≤ cfg.emergencyYellow ∧
      (stepController cfg i c).phaseTimer = c.phaseTimer + 1) := by
  rcases stepCore_to_ey cfg i (scanNotified cfg i c) h with h0 | ⟨h1, h2, h3⟩
  · exact Or.inl h0
  · rw [scanNotified_mode] at h1
    rw [scanNotified_phaseTimer] at h2 h3
    exact Or.inr ⟨h1, h2, h3⟩

/-- History invariant of the yellow modes: whenever a run sits in a
yellow mode, its phase timer is below the configured duration, bounded by
the step index, and the mode has held for the last `phaseTimer + 1`
states. -/
theorem ctrlRun_yellow_history (cfg : Config) (inp : Nat → Input)
    (hny : 1 ≤ cfg.normalYellow) (hey : 1 ≤ cfg.emergencyYellow) :
    ∀ n,
      ((ctrlRun cfg inp n).mode = .yellowTransition →
        (ctrlRun cfg inp n).phaseTimer + 1 ≤ cfg.normalYellow ∧
        (ctrlRun cfg inp n).phaseTimer ≤ n ∧
        ∀ j, j ≤ (ctrlRun cfg inp n).phaseTimer →
          (ctrlRun cfg inp (n - j)).mode = .yellowTransition) ∧
      ((ctrlRun cfg inp n).mode = .emergencyYellow →
        (ctrlRun cfg inp n).phaseTimer + 1 ≤ cfg.emergencyYellow ∧
        (ctrlRun cfg inp n).phaseTimer ≤ n ∧
        ∀ j, j ≤ (ctrlRun cfg inp n).phaseTimer →
          (ctrlRun cfg inp (n - j)).mode = .emergencyYellow) := by
  intro n
  induction n with
  | zero =>
      constructor <;> intro h <;>
        exact Mode.noConfusion (show Mode.normal = _ from h)
  | succ n ih =>
      obtain ⟨ihYT, ihEY⟩ := ih
      constructor
      · intro h
        rcases stepController_to_yt cfg (inp n) (ctrlRun cfg inp n) h with h0 | ⟨hmode, hcase⟩
        · have h0' : (ctrlRun cfg inp (n + 1)).phaseTimer = 0 := h0
          refine ⟨by omega, by omega, ?_⟩
          intro j hj
          rw [h0'] at hj
          have hj0 : j = 0 := by omega
          subst hj0
          simpa using h
        · obtain ⟨hb, hn2, hh⟩ := ihYT hmode
          rcases hcase with ⟨hbound, htim⟩ | htim
          · have htim' : (ctrlRun cfg inp (n + 1)).phaseTimer =
                (ctrlRun cfg inp n).phaseTimer + 1 := htim
            refine ⟨by omega, by omega, ?_⟩
            intro j hj
            rw [htim'] at hj
            cases j with
            | zero => simpa using h
            | succ k =>
                have hk : k ≤ (ctrlRun cfg inp n).phaseTimer := by omega
                have hidx : n + 1 - (k + 1) = n - k := by omega
                rw [hidx]
                exact hh k hk
          · have htim' : (ctrlRun cfg inp (n + 1)).phaseTimer =
                (ctrlRun cfg inp n).phaseTimer := htim
            refine ⟨by omega, by omega, ?_⟩
            intro j hj
            rw [htim'] at hj
            cases j with
            | zero => simpa using h
            | succ k =>
                have hk : k ≤ (ctrlRun cfg inp n).phaseTimer := by omega
                have hidx : n + 1 - (k + 1) = n - k := by omega
                rw [hidx]
                exact hh k (by omega)
      · intro h
        rcases stepController_to_ey cfg (inp n) (ctrlRun cfg inp n) h with h0 | ⟨hmode, hbound, htim⟩
        · have h0' : (ctrlRun cfg inp (n + 1)).phaseTimer = 0 := h0
          refine ⟨by omega, by omega, ?_⟩
          intro j hj
          rw [h0'] at hj
          have hj0 : j = 0 := by omega
          subst hj0
          simpa using h
        · obtain ⟨hb, hn2, hh⟩ := ihEY hmode
          have htim' : (ctrlRun cfg inp (n + 1)).phaseTimer =
              (ctrlRun cfg inp n).phaseTimer + 1 := htim
          refine ⟨by omega, by omega, ?_⟩
          intro j hj
          rw [htim'] at hj
          cases j with
          | zero => simpa using h
          | succ k =>
              have hk : k ≤ (ctrlRun cfg inp n).phaseTimer := by omega
              have hidx : n + 1 - (k + 1) = n - k := by omega
              rw [hidx]
              exact hh k hk

/-- C2: whenever `currentPhase` changes between step `n` and step `n+1`
of a run, the controller spent the full configured yellow interval
immediately before the change — `YELLOW_TRANSITION` for the whole normal
yellow duration (default 4 steps) with its timer exactly at the duration,
or `EMERGENCY_YELLOW` for the whole emergency duration (default 1
step). -/
theorem phase_change_needs_yellow (cfg : Config) (inp : Nat → Input) (n : Nat)
    (hny : 1 ≤ cfg.normalYellow) (hey : 1 ≤ cfg.emergencyYellow)
    (hch : (ctrlRun cfg inp (n + 1)).currentPhase ≠ (ctrlRun cfg inp n).currentPhase) :
    ((ctrlRun cfg inp n).mode = .yellowTransition ∧
      (ctrlRun cfg inp n).phaseTimer + 1 = cfg.normalYellow ∧
      ∀ j, j < cfg.normalYellow →
        (ctrlRun cfg inp (n - j)).mode = .yellowTransition) ∨
    ((ctrlRun cfg inp n).mode = .emergencyYellow ∧
      (ctrlRun cfg inp n).phaseTimer + 1 = cfg.emergencyYellow ∧
      ∀ j, j < cfg.emergencyYellow →
        (ctrlRun cfg inp (n - j)).mode = .emergencyYellow) := by
  have hch' : (stepController cfg (inp n) (ctrlRun cfg inp n)).currentPhase ≠
      (ctrlRun cfg inp n).currentPhase := hch
  rcases stepController_phase_change cfg (inp n) (ctrlRun cfg inp n) hch' with ⟨hm, hf⟩ | ⟨hm, hf⟩
  · obtain ⟨hb, -, hh⟩ := (ctrlRun_yellow_history cfg inp hny hey n).1 hm
    left
    exact ⟨hm, by omega, fun j hj => hh j (by omega)⟩
  · obtain ⟨hb, -, hh⟩ := (ctrlRun_yellow_history cfg inp hny hey n).2 hm
    right
    exact ⟨hm, by omega, fun j hj => hh j (by omega)⟩

/-- A constant input stream whose policy asks for phase 2, used by the C2
witness. -/
def witInput : Nat → Input := fun _ => { vehicles := [], desiredPhase := 2 }

/-- Witness for C2: under the default configuration the decision at step
10 starts a yellow transition and the phase changes between steps 13 and
14, after exactly 4 consecutive `YELLOW_TRANSITION` states. -/
theorem phase_change_needs_yellow_witness :
    ((ctrlRun defaultConfig witInput 13).mode = .yellowTransition ∧
      (ctrlRun defaultConfig witInput 13).phaseTimer + 1 = defaultConfig.normalYellow ∧
      ∀ j, j < defaultConfig.normalYellow →
        (ctrlRun defaultConfig witInput (13 - j)).mode = .yellowTransition) ∨
    ((ctrlRun defaultConfig witInput 13).mode = .emergencyYellow ∧
      (ctrlRun defaultConfig witInput 13).phaseTimer + 1 = defaultConfig.emergencyYellow ∧
      ∀ j, j < defaultConfig.emergencyYellow →
        (ctrlRun defaultConfig witInput (13 - j)).mode = .emergencyYellow) :=
  phase_change_needs_yellow defaultConfig witInput 13 (by decide) (by decide) (by decide)

/-! ## Preemption counting -/

/-- Whether the step from `k` to `k+1` increments `preemptionCount` on
account of vehicle `v` (the vehicle of the active session at `k`). -/
def preemptionIncrementFor (cfg : Config) (inp : Nat → Input) (v : Nat) (k : Nat) : Bool :=
  ((ctrlRun cfg inp (k + 1)).preemptionCount == (ctrlRun cfg inp k).preemptionCount + 1) &&
    (match (ctrlRun cfg inp k).activeEmergencyVehicle with
     | some ev => ev.vid == v
     | none => false)

/-- How many of the first `N` steps increment `preemptionCount` on
account of vehicle `v`. -/
def preemptionsFor (cfg : Config) (inp : Nat → Input) (v N : Nat) : Nat :=
  (List.range N).countP (preemptionIncrementFor cfg inp v)

/-- One step either leaves `preemptionCount` unchanged, or increments it
by exactly 1 — and the latter happens only when the tracked vehicle of an
`EMERGENCY_GREEN` session is no longer observed, in which case the
session is also cleared. -/
theorem stepCore_preemption_cases (cfg : Config) (i : Input) (c : Controller) :
    (stepCore cfg i c).preemptionCount = c.preemptionCount ∨
    ((stepCore cfg i c).preemptionCount = c.preemptionCount + 1 ∧
      (stepCore cfg i c).activeEmergencyVehicle = none ∧
      ∃ ev, c.activeEmergencyVehicle = some ev ∧ vehiclePresent i ev.vid = false) := by
  cases hm : c.mode with
  | normal =>
      rw [stepCore_of_normal cfg i c hm]
      cases hdet : detect cfg i with
      | some ev =>
          by_cases heq : ev.requiredPhase = c.currentPhase
          · rw [stepNonEmergency_honoring cfg i c ev hdet heq]
            exact Or.inl rfl
          · rw [stepNonEmergency_preempt cfg i c ev hdet heq]
            exact Or.inl rfl
      | none =>
          rw [stepNonEmergency_none_normal cfg i c hdet hm]
          rcases stepDecision_frame cfg i c with he | he | he <;> rw [he] <;> exact Or.inl rfl
  | yellowTransition =>
      rw [stepCore_of_yt cfg i c hm]
      cases hdet : detect cfg i with
      | some ev =>
          by_cases heq : ev.requiredPhase = c.currentPhase
          · rw [stepNonEmergency_honoring cfg i c ev hdet heq]
            exact Or.inl rfl
          · rw [stepNonEmergency_preempt cfg i c ev hdet heq]
            exact Or.inl rfl
      | none =>
          rw [stepNonEmergency_none_yt cfg i c hdet hm]
          by_cases hfire : cfg.normalYellow ≤ c.phaseTimer + 1
          · rw [stepYellowTransition_fire cfg c hfire]
            exact Or.inl rfl
          · rw [stepYellowTransition_wait cfg c hfire]
            exact Or.inl rfl
  | emergencyYellow =>
      rw [stepCore_of_ey cfg i c hm]
      by_cases hfire : cfg.emergencyYellow ≤ c.phaseTimer + 1
      · cases hae : c.activeEmergencyVehicle with
        | some ev =>
            rw [stepEmergencyYellow_fire cfg c ev hfire hae]
            exact Or.inl rfl
        | none =>
            rw [stepEmergencyYellow_fire_none cfg c hfire hae]
            exact Or.inl rfl
      · rw [stepEmergencyYellow_wait cfg c hfire]
        exact Or.inl rfl
  | emergencyGreen =>
      rw [stepCore_of_eg cfg i c hm]
      rcases stepEmergencyGreen_cases cfg i c with
        ⟨ev, hae, hp, he⟩ | ⟨ev, hae, hp, he | he⟩ | ⟨hae, he⟩ <;> rw [he]
      · exact Or.inr ⟨rfl, rfl, ev, hae, hp⟩
      · exact Or.inl rfl
      · exact Or.inl rfl
      · exact Or.inl rfl

theorem stepController_preemption_cases (cfg : Config) (i : Input) (c : Controller) :
    (stepController cfg i c).preemptionCount = c.preemptionCount ∨
    ((stepController cfg i c).preemptionCount = c.preemptionCount + 1 ∧
      (stepController cfg i c).activeEmergencyVehicle = none ∧
      ∃ ev, c.activeEmergencyVehicle = some ev ∧ vehiclePresent i ev.vid = false) := by
  rcases stepCore_preemption_cases cfg i (scanNotified cfg i c) with h | ⟨h1, h2, ev, h3, h4⟩
  · rw [scanNotified_preemptionCount] at h
    exact Or.inl h
  · rw [scanNotified_preemptionCount] at h1
    rw [scanNotified_active] at h3
    exact Or.inr ⟨h1, h2, ev, h3, h4⟩

theorem stepController_preemption_mono (cfg : Config) (i : Input) (c : Controller) :
    c.preemptionCount ≤ (stepController cfg i c).preemptionCount := by
  rcases stepController_preemption_cases cfg i c with h | ⟨h, -⟩ <;> omega

/-- A detected vehicle is (by construction of the detector) among the
observed vehicles. -/
theorem minPriority_mem_aux :
    ∀ (vs : List VehicleObs) (acc : Option VehicleObs) (v : VehicleObs),
      vs.foldl
          (fun acc v =>
            if v.isEmergency then
              match acc with
              | none => some v
              | some w => if v.distance < w.distance then some v else acc
            else acc)
          acc = some v →
      acc = some v ∨ v ∈ vs := by
  intro vs
  induction vs with
  | nil => intro acc v h; exact Or.inl h
  | cons w vs ih =>
      intro acc v h
      simp only [List.foldl_cons] at h
      rcases ih _ v h with hacc | hmem
      · by_cases hw : w.isEmergency
        · rw [if_pos hw] at hacc
          cases acc with
          | none =>
              refine Or.inr ?_
              have hv : w = v := Option.some.inj hacc
              rw [← hv]
              exact List.mem_cons_self _ _
          | some u =>
              dsimp only at hacc
              by_cases hd : w.distance < u.distance
              · rw [if_pos hd] at hacc
                refine Or.inr ?_
                have hv : w = v := Option.some.inj hacc
                rw [← hv]
                exact List.mem_cons_self _ _
              · rw [if_neg hd] at hacc
                exact Or.inl hacc
        · rw [if_neg hw] at hacc
          exact Or.inl hacc
      · exact Or.inr (List.mem_cons_of_mem _ hmem)

theorem minPriority_mem (vs : List VehicleObs) (v : VehicleObs)
    (h : minPriority vs = some v) : v ∈ vs := by
  unfold minPriority at h
  rcases minPriority_mem_aux vs none v h with hacc | hmem
  · exact Option.noConfusion hacc
  · exact hmem

/-- A detection implies the vehicle is observed this step. -/
theorem detect_present (cfg : Config) (i : Input) (ev : EmergencyEvent)
    (h : detect cfg i = some ev) : vehiclePresent i ev.vid = true := by
  unfold detect at h
  cases hmp : minPriority i.vehicles with
  | none => rw [hmp] at h; exact Option.noConfusion h
  | some v =>
      rw [hmp] at h
      dsimp only at h
      split_ifs at h with hdist
      · cases hlk : cfg.laneMap.lookup v.lane with
        | none => rw [hlk] at h; exact Option.noConfusion h
        | some p =>
            rw [hlk] at h
            have hv : ev = ⟨v.vid, v.lane, v.distance, p⟩ := (Option.some.inj h).symm
            have hmem := minPriority_mem i.vehicles v hmp
            unfold vehiclePresent
            rw [hv]
            simp only [List.any_eq_true]
            exact ⟨v, hmem, by simp⟩

/-- The active session vehicle can only come from the previous state or
from a detection this step. -/
theorem stepCore_active_cases (cfg : Config) (i : Input) (c : Controller) (ev : EmergencyEvent)
    (h : (stepCore cfg i c).activeEmergencyVehicle = some ev) :
    c.activeEmergencyVehicle = some ev ∨ detect cfg i = some ev := by
  cases hm : c.mode with
  | normal =>
      rw [stepCore_of_normal cfg i c hm] at h
      cases hdet : detect cfg i with
      | some ev2 =>
          by_cases heq : ev2.requiredPhase = c.currentPhase
          · rw [stepNonEmergency_honoring cfg i c ev2 hdet heq] at h
            exact Or.inl h
          · rw [stepNonEmergency_preempt cfg i c ev2 hdet heq] at h
            have hv : ev2 = ev := Option.some.inj h
            rw [← hv]
            exact Or.inr rfl
      | none =>
          rw [stepNonEmergency_none_normal cfg i c hdet hm] at h
          rcases stepDecision_frame cfg i c with he | he | he <;> rw [he] at h <;> exact Or.inl h
  | yellowTransition =>
      rw [stepCore_of_yt cfg i c hm] at h
      cases hdet : detect cfg i with
      | some ev2 =>
          by_cases heq : ev2.requiredPhase = c.currentPhase
          · rw [stepNonEmergency_honoring cfg i c ev2 hdet heq] at h
            exact Or.inl h
          · rw [stepNonEmergency_preempt cfg i c ev2 hdet heq] at h
            have hv : ev2 = ev := Option.some.inj h
            rw [← hv]
            exact Or.inr rfl
      | none =>
          rw [stepNonEmergency_none_yt cfg i c hdet hm] at h
          by_cases hfire : cfg.normalYellow ≤ c.phaseTimer + 1
          · rw [stepYellowTransition_fire cfg c hfire] at h
            exact Or.inl h
          · rw [stepYellowTransition_wait cfg c hfire] at h
            exact Or.inl h
  | emergencyYellow =>
      rw [stepCore_of_ey cfg i c hm] at h
      by_cases hfire : cfg.emergencyYellow ≤ c.phaseTimer + 1
      · cases hae : c.activeEmergencyVehicle with
        | some ev2 =>
            rw [stepEmergencyYellow_fire cfg c ev2 hfire hae] at h
            have h2 : c.activeEmergencyVehicle = some ev := h
            rw [hae] at h2
            exact Or.inl h2
        | none =>
            rw [stepEmergencyYellow_fire_none cfg c hfire hae] at h
            have h2 : c.activeEmergencyVehicle = some ev := h
            rw [hae] at h2
            exact Option.noConfusion h2
      · rw [stepEmergencyYellow_wait cfg c hfire] at h
        exact Or.inl h
  | emergencyGreen =>
      rw [stepCore_of_eg cfg i c hm] at h
      rcases stepEmergencyGreen_cases cfg i c with
        ⟨ev2, hae, hp, he⟩ | ⟨ev2, hae, hp, he | he⟩ | ⟨hae, he⟩ <;> rw [he] at h
      · exact Option.noConfusion (show (none : Option EmergencyEvent) = some ev from h)
      · exact Option.noConfusion (show (none : Option EmergencyEvent) = some ev from h)
      · exact Or.inl h
      · have h2 : c.activeEmergencyVehicle = some ev := h
        rw [hae] at h2
        exact Option.noConfusion h2

theorem stepController_active_cases (cfg : Config) (i : Input) (c : Controller)
    (ev : EmergencyEvent)
    (h : (stepController cfg i c).activeEmergencyVehicle = some ev) :
    c.activeEmergencyVehicle = some ev ∨ detect cfg i = some ev := by
  rcases stepCore_active_cases cfg i (scanNotified cfg i c) ev h with h2 | h2
  · rw [scanNotified_active] at h2
    exact Or.inl h2
  · exact Or.inr h2

/-- Every active preemption session started at some earlier step at which
the vehicle was observed, and the session has been active ever since. -/
theorem ctrlRun_active_session (cfg : Config) (inp : Nat → Input) :
    ∀ n ev, (ctrlRun cfg inp n).activeEmergencyVehicle = some ev →
      ∃ j, j < n ∧ vehiclePresent (inp j) ev.vid = true ∧
        ∀ i2, j < i2 → i2 ≤ n →
          (ctrlRun cfg inp i2).activeEmergencyVehicle = some ev := by
  intro n
  induction n with
  | zero =>
      intro ev h
      exact Option.noConfusion (show (none : Option EmergencyEvent) = some ev from h)
  | succ n ih =>
      intro ev h
      rcases stepController_active_cases cfg (inp n) (ctrlRun cfg inp n) ev h with hprev | hdet
      · obtain ⟨j, hj, hp, hsess⟩ := ih ev hprev
        refine ⟨j, by omega, hp, ?_⟩
        intro i2 hji hi2
        rcases Nat.lt_or_ge i2 (n + 1) with hlt | hge
        · exact hsess i2 hji (by omega)
        · have hi : i2 = n + 1 := by omega
          subst hi
          exact h
      · refine ⟨n, by omega, detect_present cfg (inp n) ev hdet, ?_⟩
        intro i2 hji hi2
        have hi : i2 = n + 1 := by omega
        subst hi
        exact h

theorem preemptionIncrementFor_unpack (cfg : Config) (inp : Nat → Input) (v k : Nat)
    (h : preemptionIncrementFor cfg inp v k = true) :
    ∃ ev, (ctrlRun cfg inp k).activeEmergencyVehicle = some ev ∧ ev.vid = v ∧
      (ctrlRun cfg inp (k + 1)).preemptionCount =
        (ctrlRun cfg inp k).preemptionCount + 1 := by
  unfold preemptionIncrementFor at h
  rw [Bool.and_eq_true] at h
  obtain ⟨h1, h2⟩ := h
  cases hae : (ctrlRun cfg inp k).activeEmergencyVehicle with
  | none => simp [hae] at h2
  | some ev =>
      rw [hae] at h2
      dsimp only at h2
      exact ⟨ev, rfl, eq_of_beq h2, eq_of_beq h1⟩

/-- Under contiguous presence of vehicle `v` (once it leaves, it never
returns — the physical lifetime of a spawned vehicle), at most one step
of a run can increment `preemptionCount` on account of `v`. -/
theorem preemption_at_most_once (cfg : Config) (inp : Nat → Input) (v : Nat)
    (hcont : ∀ a b c2, a ≤ b → b ≤ c2 → vehiclePresent (inp a) v = true →
      vehiclePresent (inp c2) v = true → vehiclePresent (inp b) v = true) :
    ∀ k1 k2, preemptionIncrementFor cfg inp v k1 = true →
      preemptionIncrementFor cfg inp v k2 = true → k1 = k2 := by
  have key : ∀ k1 k2, k1 < k2 → preemptionIncrementFor cfg inp v k1 = true →
      preemptionIncrementFor cfg inp v k2 = true → False := by
    intro k1 k2 hlt hi1 hi2
    obtain ⟨ev1, hae1, hv1, hc1⟩ := preemptionIncrementFor_unpack cfg inp v k1 hi1
    obtain ⟨ev2, hae2, hv2, -⟩ := preemptionIncrementFor_unpack cfg inp v k2 hi2
    rcases stepController_preemption_cases cfg (inp k1) (ctrlRun cfg inp k1) with
      hsame | ⟨-, hnone, ev1b, haeb, hclear⟩
    · have hsame2 : (ctrlRun cfg inp (k1 + 1)).preemptionCount =
          (ctrlRun cfg inp k1).preemptionCount := hsame
      omega
    · have hev : ev1 = ev1b := by
        rw [hae1] at haeb
        exact Option.some.inj haeb
      rw [← hev, hv1] at hclear
      have hnone2 : (ctrlRun cfg inp (k1 + 1)).activeEmergencyVehicle = none := hnone
      obtain ⟨j, hjlt, hjpres, hsess⟩ := ctrlRun_active_session cfg inp k2 ev2 hae2
      have hjk1 : k1 < j := by
        by_contra hle
        push_neg at hle
        have hcontra := hsess (k1 + 1) (by omega) (by omega)
        rw [hnone2] at hcontra
        exact Option.noConfusion hcontra
      obtain ⟨j1, hj1lt, hj1pres, -⟩ := ctrlRun_active_session cfg inp k1 ev1 hae1
      rw [hv1] at hj1pres
      rw [hv2] at hjpres
      have hmid := hcont j1 k1 j (by omega) (by omega) hj1pres hjpres
      rw [hclear] at hmid
      exact Bool.noConfusion hmid
  intro k1 k2 h1 h2
  rcases Nat.lt_trichotomy k1 k2 with h | h | h
  · exact (key k1 k2 h h1 h2).elim
  · exact h
  · exact (key k2 k1 h h2 h1).elim

/-- A duplicate-free list on which a predicate singles out at most one
element has predicate count at most 1. -/
theorem countP_le_one_of_unique {α : Type} (p : α → Bool) (l : List α) (hl : l.Nodup)
    (h : ∀ a b, a ∈ l → b ∈ l → p a = true → p b = true → a = b) :
    l.countP p ≤ 1 := by
  rw [List.countP_eq_length_filter]
  rcases hf : l.filter p with - | ⟨a, - | ⟨b, t⟩⟩
  · simp
  · simp
  · exfalso
    have ha : a ∈ l.filter p := by rw [hf]; exact List.mem_cons_self _ _
    have hb : b ∈ l.filter p := by
      rw [hf]
      exact List.mem_cons_of_mem _ (List.mem_cons_self _ _)
    have hfil := hl.filter p
    rw [hf] at hfil
    have hab : a ≠ b := by
      intro he
      rw [he] at hfil
      exact (List.nodup_cons.mp hfil).1 (List.mem_cons_self _ _)
    exact hab (h a b (List.mem_of_mem_filter ha) (List.mem_of_mem_filter hb)
      (List.of_mem_filter ha) (List.of_mem_filter hb))

/-- C4 counterexample inputs: priority vehicle 7 is observed (within the
detection radius, on a lane whose phase the controller already holds) at
steps 0 and 1, and has fully cleared from step 2 on. -/
def cexInput : Nat → Input := fun k =>
  if k < 2 then { vehicles := [⟨7, true, 0, 85⟩], desiredPhase := 0 }
  else { vehicles := [], desiredPhase := 0 }

/-- C4 counterexample: vehicle 7 enters detection range (it is detected
at step 0 at distance 85) and fully clears (it is absent from step 2 on),
yet `preemptionCount` never increases — its required phase already
equalled `currentPhase`, so no preemption session ever started.  The
"exactly 1 per distinct vehicleId that enters and fully clears" part of
the claim is therefore false. -/
theorem preemption_exactly_once_cex :
    detect defaultConfig (cexInput 0) = some ⟨7, 0, 85, 0⟩ ∧
    vehiclePresent (cexInput 0) 7 = true ∧
    vehiclePresent (cexInput 5) 7 = false ∧
    (ctrlRun defaultConfig cexInput 10).preemptionCount = 0 := by
  decide

/-- C4 (amended): `preemptionCount` is monotonically non-decreasing
across the steps of a run (it is reset to 0 only by controller reset),
and for every vehicle id whose presence is contiguous in time, at most
one step of the run increments the counter on its account — never twice
for the same vehicle.  (A vehicle that enters range and clears while its
required phase already equals `currentPhase` contributes 0, so "exactly
1" does not hold; see the counterexample.) -/
theorem preemption_count_correct (cfg : Config) (inp : Nat → Input) (v N : Nat)
    (hcont : ∀ a b c2, a ≤ b → b ≤ c2 → vehiclePresent (inp a) v = true →
      vehiclePresent (inp c2) v = true → vehiclePresent (inp b) v = true) :
    (∀ n m, n ≤ m →
      (ctrlRun cfg inp n).preemptionCount ≤ (ctrlRun cfg inp m).preemptionCount) ∧
    preemptionsFor cfg inp v N ≤ 1 ∧
    (∀ c, (resetController c).preemptionCount = 0) := by
  refine ⟨?_, ?_, fun _ => rfl⟩
  · intro n m hnm
    induction hnm with
    | refl => exact le_refl _
    | @step m hle ih =>
        have hstep : (ctrlRun cfg inp m).preemptionCount ≤
            (ctrlRun cfg inp (m + 1)).preemptionCount :=
          stepController_preemption_mono cfg (inp m) (ctrlRun cfg inp m)
        show (ctrlRun cfg inp n).preemptionCount ≤
          (ctrlRun cfg inp (m + 1)).preemptionCount
        omega
  · unfold preemptionsFor
    exact countP_le_one_of_unique _ _ (List.nodup_range N)
      (fun a b _ _ ha hb => preemption_at_most_once cfg inp v hcont a b ha hb)

/-- Witness for C4: on the counterexample inputs (contiguous presence of
vehicle 7), the counter is monotone between steps 3 and 7, vehicle 7
accounts for at most one increment in 10 steps, and reset yields 0. -/
theorem preemption_count_correct_witness :
    (ctrlRun defaultConfig cexInput 3).preemptionCount ≤
      (ctrlRun defaultConfig cexInput 7).preemptionCount ∧
    preemptionsFor defaultConfig cexInput 7 10 ≤ 1 ∧
    (resetController initController).preemptionCount = 0 := by
  obtain ⟨h1, h2, h3⟩ :=
    preemption_count_correct defaultConfig cexInput 7 10
      (by
        intro a b c2 hab hbc hpa hpc
        by_cases hb : b < 2
        · simp [cexInput, hb, vehiclePresent]
        · exfalso
          have hc2 : ¬ c2 < 2 := by omega
          simp [cexInput, hc2, vehiclePresent] at hpc)
  exact ⟨h1 3 7 (by omega), h2, h3 initController⟩

/-! ## Detection logging (at most once per vehicle) -/

/-- Fold invariant of the detection scan: starting from a duplicate-free
accumulator disjoint from the notified set, the scan keeps the
accumulator duplicate-free and disjoint from the notified set. -/
theorem newlyDetected_fold (cfg : Config) (notified : List Nat) :
    ∀ (vs : List VehicleObs) (acc : List Nat), acc.Nodup → (∀ x ∈ acc, x ∉ notified) →
      (vs.foldl
          (fun acc v =>
            if v.isEmergency ∧ v.distance ≤ cfg.detectionRange ∧
                v.vid ∉ notified ∧ v.vid ∉ acc then
              acc ++ [v.vid]
            else acc)
          acc).Nodup ∧
      (∀ x ∈ vs.foldl
          (fun acc v =>
            if v.isEmergency ∧ v.distance ≤ cfg.detectionRange ∧
                v.vid ∉ notified ∧ v.vid ∉ acc then
              acc ++ [v.vid]
            else acc)
          acc, x ∉ notified) := by
  intro vs
  induction vs with
  | nil => intro acc h1 h2; exact ⟨h1, h2⟩
  | cons v vs ih =>
      intro acc h1 h2
      simp only [List.foldl_cons]
      by_cases hc : v.isEmergency ∧ v.distance ≤ cfg.detectionRange ∧
          v.vid ∉ notified ∧ v.vid ∉ acc
      · rw [if_pos hc]
        refine ih (acc ++ [v.vid]) ?_ ?_
        · simp only [List.nodup_append, List.nodup_cons, List.not_mem_nil,
            not_false_eq_true, List.nodup_nil, and_true, true_and, h1]
          intro x hx hmem
          simp only [List.mem_singleton] at hmem
          exact hc.2.2.2 (hmem ▸ hx)
        · intro x hx
          rcases List.mem_append.mp hx with hx | hx
          · exact h2 x hx
          · simp only [List.mem_singleton] at hx
            exact hx ▸ hc.2.2.1
      · rw [if_neg hc]
        exact ih acc h1 h2

/-- The ids collected by one detection scan are pairwise distinct. -/
theorem newlyDetected_nodup (cfg : Config) (i : Input) (notified : List Nat) :
    (newlyDetected cfg i notified).Nodup :=
  (newlyDetected_fold cfg notified i.vehicles [] List.nodup_nil (by simp)).1

/-- The ids collected by one detection scan were not notified before. -/
theorem newlyDetected_disjoint (cfg : Config) (i : Input) (notified : List Nat) :
    ∀ x ∈ newlyDetected cfg i notified, x ∉ notified :=
  (newlyDetected_fold cfg notified i.vehicles [] List.nodup_nil (by simp)).2

/-- The mode state machine never touches the notified set. -/
theorem stepCore_notified (cfg : Config) (i : Input) (c : Controller) :
    (stepCore cfg i c).notifiedVehicles = c.notifiedVehicles := by
  unfold stepCore stepEmergencyYellow stepEmergencyGreen stepNonEmergency
    stepYellowTransition stepDecision enterEmergencyYellow
  cases c.mode <;> dsimp only <;> repeat' first | rfl | split

/-- Across one full controller step, the notified set grows by exactly
the ids of this scan. -/
theorem stepController_notified (cfg : Config) (i : Input) (c : Controller) :
    (stepController cfg i c).notifiedVehicles =
      c.notifiedVehicles ++ newlyDetected cfg i c.notifiedVehicles := by
  unfold stepController
  rw [stepCore_notified]
  rfl

/-- Invariant of the DecisionLog: each vehicle id occurs at most once,
and as soon as it occurs it is in the notified set. -/
theorem runLog_invariant (cfg : Config) (inp : Nat → Input) (v : Nat) :
    ∀ N, ((runLog cfg inp N).countP (fun e => e.2 == v)) ≤ 1 ∧
      (1 ≤ (runLog cfg inp N).countP (fun e => e.2 == v) →
        v ∈ (ctrlRun cfg inp N).notifiedVehicles) := by
  intro N
  induction N with
  | zero => simp [runLog]
  | succ N ih =>
      obtain ⟨ih1, ih2⟩ := ih
      have hnot : (ctrlRun cfg inp (N + 1)).notifiedVehicles =
          (ctrlRun cfg inp N).notifiedVehicles ++
            newlyDetected cfg (inp N) ((ctrlRun cfg inp N).notifiedVehicles) :=
        stepController_notified cfg (inp N) (ctrlRun cfg inp N)
      have hcnt : (runLog cfg inp (N + 1)).countP (fun e => e.2 == v) =
          (runLog cfg inp N).countP (fun e => e.2 == v) +
            (newlyDetected cfg (inp N) ((ctrlRun cfg inp N).notifiedVehicles)).count v := by
        show ((runLog cfg inp N ++ _).countP _) = _
        rw [List.countP_append, List.countP_map]
        rfl
      by_cases hv : v ∈ (ctrlRun cfg inp N).notifiedVehicles
      · have hnd : v ∉ newlyDetected cfg (inp N) ((ctrlRun cfg inp N).notifiedVehicles) :=
          fun hmem => newlyDetected_disjoint cfg (inp N) _ v hmem hv
        have hzero : (newlyDetected cfg (inp N) ((ctrlRun cfg inp N).notifiedVehicles)).count v = 0 :=
          List.count_eq_zero.mpr hnd
        constructor
        · rw [hcnt, hzero]; omega
        · intro _
          rw [hnot]
          exact List.mem_append_left _ hv
      · have hold : (runLog cfg inp N).countP (fun e => e.2 == v) = 0 := by
          by_contra hne
          exact hv (ih2 (by omega))
        have hle : (newlyDetected cfg (inp N) ((ctrlRun cfg inp N).notifiedVehicles)).count v ≤ 1 :=
          List.nodup_iff_count_le_one.mp (newlyDetected_nodup cfg (inp N) _) v
        constructor
        · rw [hcnt, hold]; omega
        · intro hone
          rw [hcnt, hold] at hone
          have : v ∈ newlyDetected cfg (inp N) ((ctrlRun cfg inp N).notifiedVehicles) := by
            by_contra hne
            rw [List.count_eq_zero.mpr hne] at hone
            omega
          rw [hnot]
          exact List.mem_append_right _ this

/-- C6: for every vehicle id, over any run the EmergencyDetector emits a
detection event to the DecisionLog at most once — on the step of first
detection — no matter how many steps the vehicle stays in range;
membership in `notifiedVehicles` blocks any further event for that
id. -/
theorem detection_logged_once (cfg : Config) (inp : Nat → Input) (v : Nat) (N : Nat) :
    ((runLog cfg inp N).countP (fun e => e.2 == v)) ≤ 1 :=
  (runLog_invariant cfg inp v N).1

/-- Witness for C7: with baseline waiting time 10 and adaptive 4 the
reduction satisfies `4 = 10 * (1 - r/100)` (i.e. r = 60), and an
all-zero queue baseline yields reduction 0 without error. -/
theorem record_improvements_witness :
    (4 : ℚ) =
      10 * (1 - (recordMetrics ⟨4, 7, 6⟩ ⟨10, 0, 5⟩).waitingTimeReduction / 100) ∧
    (recordMetrics ⟨4, 7, 6⟩ ⟨10, 0, 5⟩).queueLengthReduction = 0 := by
  constructor
  · exact (record_improvements ⟨4, 7, 6⟩ ⟨10, 0, 5⟩).2.1 (by norm_num)
  · exact (record_improvements ⟨4, 7, 6⟩ ⟨10, 0, 5⟩).2.2.1 rfl

end TrafficSys

